import Mathlib

/-!
Verification development for the pygame agar.io server (`src/server.py`).

The server is shallowly embedded: player scores and distances are modelled
as real numbers (Python floats), positions as integers (the server stores
`int` coordinates from `random.randrange` and `int(x)`), wall-clock readings
as rationals passed in as event parameters, and every call to the random
number generator as an explicit stream of draws (a draw for
`random.randrange(0, n)` is modelled as `seed % n`, which ranges over exactly
the values the generator can produce).  Fallible paths (Python exceptions /
infinite rejection-sampling loops) return `Option`.
-/

namespace Agar

/-- World width, `GameServer.W = 850`. -/
def WWIDTH : ℕ := 850

/-- World height, `GameServer.H = 720`. -/
def WHEIGHT : ℕ := 720

/-- `GameServer.START_RADIUS = 7`, the base radius added to the score. -/
def START_RADIUS : ℝ := 7

/-- `GameServer.ROUND_TIME = 60 * 5 = 300` seconds. -/
def ROUND_TIME : ℤ := 300

/-- `GameServer.MASS_LOSS_TIME = 7` seconds between decay ticks. -/
def MASS_LOSS_TIME : ℤ := 7

/-- `GameServer.COLORS`, the fixed 14-colour palette. -/
def COLORS : List (ℕ × ℕ × ℕ) :=
  [(255,0,0), (255,128,0), (255,255,0), (128,255,0), (0,255,0),
   (0,255,128), (0,255,255), (0,128,255), (0,0,255), (128,0,255),
   (255,0,255), (255,0,128), (128,128,128), (0,0,0)]

/-- A player record, `self.players[id] = {"x","y","color","score","name"}`. -/
structure Player where
  x : ℤ
  y : ℤ
  color : ℕ × ℕ × ℕ
  score : ℝ
  name : String

/-- A food ball `(x, y, color)` as appended by `_create_balls`. -/
abbrev Ball := ℤ × ℤ × (ℕ × ℕ × ℕ)

/-- The player dictionary, in insertion order (Python dicts iterate in
insertion order, which `_check_collisions` relies on). -/
abbrev PlayerMap := List (ℕ × Player)

/-- `math.hypot`: the euclidean distance helper used throughout the server. -/
noncomputable def hypot (dx dy : ℝ) : ℝ := Real.sqrt (dx ^ 2 + dy ^ 2)

/-- In-place mutation of one player's record (`self.players[i][...] = ...`):
the entry keeps its position in the dict. -/
def updPlayer (m : PlayerMap) (i : ℕ) (f : Player → Player) : PlayerMap :=
  m.map fun e => if e.1 = i then (e.1, f e.2) else e

/-- The rejection-sampling acceptance test shared by `_get_start_location`
and `_create_balls`: a candidate `(x, y)` is safe when its distance to every
current player strictly exceeds `START_RADIUS + score`. -/
def isSafeLoc (m : PlayerMap) (x y : ℤ) : Prop :=
  ∀ e ∈ m, ¬(hypot ((x - e.2.x : ℤ) : ℝ) ((y - e.2.y : ℤ) : ℝ) ≤ START_RADIUS + e.2.score)

open Classical

/-- `_get_start_location`: draw `(randrange(0, W), randrange(0, H))` until the
candidate is safe.  The stream of raw draws is explicit; `none` models the
loop running out of modelled draws (the Python loop is unbounded). -/
noncomputable def findSafeLoc (m : PlayerMap) :
    List (ℕ × ℕ) → Option ((ℤ × ℤ) × List (ℕ × ℕ))
  | [] => none
  | (a, b) :: rest =>
    if isSafeLoc m ((a % WWIDTH : ℕ) : ℤ) ((b % WHEIGHT : ℕ) : ℤ) then
      some ((((a % WWIDTH : ℕ) : ℤ), ((b % WHEIGHT : ℕ) : ℤ)), rest)
    else findSafeLoc m rest

/-- One iteration of the placement loop inside `_create_balls`: sample until
safe, then attach `random.choice(COLORS)` (the colour draw is modelled as an
index reduced mod the palette size). -/
noncomputable def findSafeBall (m : PlayerMap) :
    List (ℕ × ℕ × ℕ) → Option (Ball × List (ℕ × ℕ × ℕ))
  | [] => none
  | (a, b, c) :: rest =>
    if isSafeLoc m ((a % WWIDTH : ℕ) : ℤ) ((b % WHEIGHT : ℕ) : ℤ) then
      some ((((a % WWIDTH : ℕ) : ℤ), ((b % WHEIGHT : ℕ) : ℤ),
             COLORS.getD (c % COLORS.length) (0, 0, 0)), rest)
    else findSafeBall m rest

/-- `_create_balls(n)`: place `n` balls one after the other, threading the
random stream.  The new balls are returned in placement order (the Python
code appends each one to `self.balls`). -/
noncomputable def createBalls (m : PlayerMap) :
    ℕ → List (ℕ × ℕ × ℕ) → Option (List Ball)
  | 0, _ => some []
  | n + 1, rnd =>
    match findSafeBall m rnd with
    | none => none
    | some (b, rest) => (createBalls m n rest).map fun bs => b :: bs

/-- The ball-consumption test of `_check_collisions` (line 139):
`dist <= START_RADIUS + p_score`, with `p_score` the score read once at the
start of the resolver. -/
def ballEatCond (px py : ℤ) (ps : ℝ) (b : Ball) : Prop :=
  hypot ((px - b.1 : ℤ) : ℝ) ((py - b.2.1 : ℤ) : ℝ) ≤ START_RADIUS + ps

/-- The player-vs-balls loop of `_check_collisions`: iterate over a copy of
the ball list, and for each qualifying ball add `0.5` to the acting player's
score and `list.remove` the first equal ball from the live list. -/
noncomputable def foodPhase (px py : ℤ) (ps : ℝ) :
    List Ball → List Ball → ℝ → List Ball × ℝ
  | [], cur, s => (cur, s)
  | b :: rest, cur, s =>
    if ballEatCond px py ps b then foodPhase px py ps rest (cur.erase b) (s + 0.5)
    else foodPhase px py ps rest cur s

/-- The eating test of `_check_collisions` (line 152):
`p_score > op_score * 1.15 and dist < START_RADIUS + p_score`, where
`p_score` is the acting player's score read once at resolver entry. -/
def eatCond (px py : ℤ) (ps : ℝ) (o : Player) : Prop :=
  ps > o.score * 1.15 ∧
    hypot ((px - o.x : ℤ) : ℝ) ((py - o.y : ℤ) : ℝ) < START_RADIUS + ps

/-- The player-vs-player loop of `_check_collisions` (lines 144-156):
iterate over the dict keys in insertion order; on an eat, set the acting
player's score to `sqrt(p_score² + op_score²)` (note: `p_score` is the stale
entry score), zero the victim's score, and relocate the victim through
`_get_start_location` against the current player map. -/
noncomputable def playerPhase (pid : ℕ) (px py : ℤ) (ps : ℝ) :
    List ℕ → PlayerMap → List (ℕ × ℕ) → Option (PlayerMap × List (ℕ × ℕ))
  | [], m, rnd => some (m, rnd)
  | oid :: rest, m, rnd =>
    if oid = pid then playerPhase pid px py ps rest m rnd
    else
      match List.lookup oid m with
      | none => none
      | some o =>
        if eatCond px py ps o then
          let m1 := updPlayer m pid fun q => { q with score := Real.sqrt (ps ^ 2 + o.score ^ 2) }
          let m2 := updPlayer m1 oid fun q => { q with score := 0 }
          match findSafeLoc m2 rnd with
          | none => none
          | some ((nx, ny), rnd2) =>
            playerPhase pid px py ps rest (updPlayer m2 oid fun q => { q with x := nx, y := ny }) rnd2
        else playerPhase pid px py ps rest m rnd

/-- `_check_collisions(current_id)`: read `px, py, p_score` once, run the
ball loop, then the player loop.  `none` models a `KeyError` (unknown id) or
an exhausted relocation stream. -/
noncomputable def checkCollisions (players : PlayerMap) (balls : List Ball)
    (pid : ℕ) (rnd : List (ℕ × ℕ)) :
    Option (PlayerMap × List Ball × List (ℕ × ℕ)) :=
  match List.lookup pid players with
  | none => none
  | some p =>
    let fb := foodPhase p.x p.y p.score balls balls p.score
    (playerPhase pid p.x p.y p.score (players.map Prod.fst)
        (updPlayer players pid fun q => { q with score := fb.2 }) rnd).map
      fun r => (r.1, fb.1, r.2)

/-- `_add_chat_message`: append, then `pop(0)` once if the length exceeds 20. -/
def addChatMessage (hist : List String) (msg : String) : List String :=
  if (hist ++ [msg]).length > 20 then (hist ++ [msg]).drop 1 else hist ++ [msg]

/-- The mutable server state (`GameServer.__init__`).  `gameTime` starts at
`0` (the Python field holds the placeholder string `"Starting Soon"` until
the first update; no claim depends on the placeholder). -/
structure ServerState where
  players : PlayerMap
  balls : List Ball
  msgHistory : List String
  gameTime : ℤ
  startTime : ℚ
  gameStarted : Bool
  nextMassLossTick : ℤ
  playerIdCounter : ℕ

/-- The decay sweep of `_update_game_state` (lines 126-128): every player
with score `> 8` gets `math.floor(score * 0.95)`. -/
noncomputable def decayAll (m : PlayerMap) : PlayerMap :=
  m.map fun e =>
    if e.2.score > 8 then (e.1, { e.2 with score := ((⌊e.2.score * 0.95⌋ : ℤ) : ℝ) }) else e

/-- `_update_game_state()`, with `now` the wall-clock reading: recompute
`game_time = round(elapsed)`, flip `game_started` off once the round time is
reached, and run the decay sweep exactly when `game_time // 7` equals
`next_mass_loss_tick` (incrementing the tick counter).  Python `round` is
banker's rounding; the model uses Mathlib `round`, which only differs at
exact half-integers (never hit by the integer-second readings used here). -/
noncomputable def updateGameState (st : ServerState) (now : ℚ) : ServerState :=
  if st.gameStarted then
    let gt : ℤ := round (now - st.startTime)
    let started : Bool := decide (gt < ROUND_TIME)
    if Int.fdiv gt MASS_LOSS_TIME = st.nextMassLossTick then
      { st with gameTime := gt, gameStarted := started,
                nextMassLossTick := st.nextMassLossTick + 1,
                players := decayAll st.players }
    else { st with gameTime := gt, gameStarted := started }
  else st

/-- `str.split()` restricted to the space character: split into maximal
nonempty runs (the commands of the wire protocol separate fields with single
spaces). -/
def splitWsAux : List Char → List Char → List (List Char)
  | [], cur => if cur = [] then [] else [cur.reverse]
  | c :: rest, cur =>
    if c = ' ' then
      (if cur = [] then splitWsAux rest [] else cur.reverse :: splitWsAux rest [])
    else splitWsAux rest (c :: cur)

/-- Split a character list on spaces, dropping empty fields. -/
def splitWs (l : List Char) : List (List Char) := splitWsAux l []

/-- Digit-string accumulator for `int(...)`. -/
def parseNatCore : List Char → ℕ → Option ℕ
  | [], acc => some acc
  | c :: rest, acc =>
    if c.isDigit then parseNatCore rest (acc * 10 + (c.toNat - 48)) else none

/-- Python `int(s)` on the decimal strings the protocol carries: an optional
leading minus sign followed by digits. -/
def parseIntChars : List Char → Option ℤ
  | [] => none
  | '-' :: rest =>
    if rest = [] then none else (parseNatCore rest 0).map fun n => -(n : ℤ)
  | l => (parseNatCore l 0).map fun n => (n : ℤ)

/-- `_, x, y = command.split()` followed by `int(x)`, `int(y)`: `none` models
the `ValueError` that kills the session thread. -/
def parseMove (cmd : String) : Option (ℤ × ℤ) :=
  match splitWs cmd.data with
  | [_, xs, ys] =>
    match parseIntChars xs, parseIntChars ys with
    | some x, some y => some (x, y)
    | _, _ => none
  | _ => none

/-- `str.startswith` on character lists. -/
def strStarts : List Char → List Char → Bool
  | [], _ => true
  | _ :: _, [] => false
  | a :: at2, b :: bt => a == b && strStarts at2 bt

/-- The snapshot tuple sent after every intent (line 214):
`(self.balls, self.players, self.game_time, self.msg_history)`. -/
abbrev Snap := List Ball × PlayerMap × ℤ × List String

/-- Package the full game state, `send_data` of `_handle_client`. -/
def snapOf (st : ServerState) : Snap := (st.balls, st.players, st.gameTime, st.msgHistory)

/-- One iteration of the communication loop of `_handle_client` (lines
186-216) for a decoded command string: update the game state, dispatch on
`startswith("move")` / `startswith("msg")`, and reply with a full snapshot.
`none` models an exception that terminates the session (unparseable move
fields, unknown player id).  `reloRnd` feeds victim relocations, `ballRnd`
and `countSeed` feed `_create_balls(random.randrange(50, 100))`. -/
noncomputable def handleCommand (st : ServerState) (pid : ℕ) (cmd : String) (now : ℚ)
    (reloRnd : List (ℕ × ℕ)) (ballRnd : List (ℕ × ℕ × ℕ)) (countSeed : ℕ) :
    Option (ServerState × Snap) :=
  let st1 := updateGameState st now
  if strStarts "move".data cmd.data then
    match parseMove cmd, List.lookup pid st1.players with
    | some (cx, cy), some _ =>
      let players2 := updPlayer st1.players pid fun p => { p with x := cx, y := cy }
      let col : Option (PlayerMap × List Ball × List (ℕ × ℕ)) :=
        if st1.gameStarted then checkCollisions players2 st1.balls pid reloRnd
        else some (players2, st1.balls, reloRnd)
      match col with
      | none => none
      | some (m, bs, _) =>
        let withBalls : Option ServerState :=
          if bs.length < 150 then
            (createBalls m (50 + countSeed % 50) ballRnd).map
              fun nb => { st1 with players := m, balls := bs ++ nb }
          else some { st1 with players := m, balls := bs }
        withBalls.map fun s2 => (s2, snapOf s2)
    | _, _ => none
  else if strStarts "msg".data cmd.data then
    match List.lookup pid st1.players with
    | none => none
    | some p =>
      let s2 := { st1 with
        msgHistory := addChatMessage st1.msgHistory
          (p.name ++ ": " ++ String.mk (cmd.data.drop 4)) }
      some (s2, snapOf s2)
  else some (st1, snapOf st1)

/-- A new accepted connection (accept loop lines 63-79 plus the handshake of
`_handle_client` lines 167-183): start the round clock if `game_started` is
false, assign the next id, append the `CONNECTED` chat entry, and insert the
player at a safe spawn with score `0` and palette colour `id % 14`. -/
noncomputable def handleConnect (st : ServerState) (name : String) (now : ℚ)
    (cands : List (ℕ × ℕ)) : Option ServerState :=
  let st0 := if st.gameStarted then st else { st with startTime := now, gameStarted := true }
  let pid := st0.playerIdCounter
  let st1 := { st0 with playerIdCounter := pid + 1,
                        msgHistory := addChatMessage st0.msgHistory (name ++ " CONNECTED") }
  match findSafeLoc st1.players cands with
  | none => none
  | some ((x, y), _) =>
    some { st1 with players := st1.players ++
      [(pid, { x := x, y := y, color := COLORS.getD (pid % COLORS.length) (0, 0, 0),
               score := 0, name := name })] }

/-- Session cleanup (lines 220-228): append the `DISCONNECTED` chat entry and
delete the player, if it is still registered. -/
def handleDisconnect (st : ServerState) (pid : ℕ) : ServerState :=
  match List.lookup pid st.players with
  | none => st
  | some p =>
    { st with msgHistory := addChatMessage st.msgHistory (p.name ++ " DISCONNECTED"),
              players := st.players.filter fun e => e.1 != pid }

/-- An externally observable event of the server: a new connection, one
decoded command from a connected client, or a disconnect. -/
inductive GEvent where
  | connect (name : String) (now : ℚ) (cands : List (ℕ × ℕ))
  | command (pid : ℕ) (cmd : String) (now : ℚ)
      (reloRnd : List (ℕ × ℕ)) (ballRnd : List (ℕ × ℕ × ℕ)) (countSeed : ℕ)
  | disconnect (pid : ℕ)

/-- One event against the shared state (all handlers run under the lock). -/
noncomputable def step (st : ServerState) : GEvent → Option ServerState
  | .connect n now c => handleConnect st n now c
  | .command pid cmd now r b s => (handleCommand st pid cmd now r b s).map Prod.fst
  | .disconnect pid => some (handleDisconnect st pid)

/-- Run a sequence of events. -/
noncomputable def runTrace (st : ServerState) : List GEvent → Option ServerState
  | [] => some st
  | e :: es =>
    match step st e with
    | none => none
    | some st2 => runTrace st2 es

/-- The state after `start()` has generated the initial world (the 200
startup balls are a parameter: they are random and no player exists yet to
constrain them). -/
def initState (initBalls : List Ball) : ServerState :=
  { players := [], balls := initBalls, msgHistory := [], gameTime := 0,
    startTime := 0, gameStarted := false, nextMassLossTick := 1, playerIdCounter := 0 }


/-! ### Helper lemmas: the player map -/

lemma updPlayer_cons (e : ℕ × Player) (t : PlayerMap) (i : ℕ) (f : Player → Player) :
    updPlayer (e :: t) i f = (if e.1 = i then (e.1, f e.2) else e) :: updPlayer t i f := rfl

lemma updPlayer_keys (m : PlayerMap) (i : ℕ) (f : Player → Player) :
    (updPlayer m i f).map Prod.fst = m.map Prod.fst := by
  induction m with
  | nil => rfl
  | cons e t ih =>
    rw [updPlayer_cons, List.map_cons, List.map_cons, ih]
    by_cases h : e.1 = i
    · rw [if_pos h]
    · rw [if_neg h]

lemma lookup_updPlayer_self (m : PlayerMap) (i : ℕ) (f : Player → Player) :
    List.lookup i (updPlayer m i f) = (List.lookup i m).map f := by
  induction m with
  | nil => rfl
  | cons e t ih =>
    obtain ⟨k, v⟩ := e
    rw [updPlayer_cons]
    by_cases h : k = i
    · subst h
      rw [if_pos rfl]
      simp [List.lookup_cons]
    · rw [if_neg (by simpa using h)]
      have hb : (i == k) = false := by simp [Ne.symm h]
      simp [List.lookup_cons, hb, ih]

lemma lookup_updPlayer_ne (m : PlayerMap) (i j : ℕ) (f : Player → Player) (h : j ≠ i) :
    List.lookup j (updPlayer m i f) = List.lookup j m := by
  induction m with
  | nil => rfl
  | cons e t ih =>
    obtain ⟨k, v⟩ := e
    rw [updPlayer_cons]
    by_cases hk : k = i
    · subst hk
      rw [if_pos rfl]
      have hb : (j == k) = false := by simp [h]
      simp [List.lookup_cons, hb, ih]
    · rw [if_neg (by simpa using hk)]
      by_cases hj : j = k
      · subst hj
        simp [List.lookup_cons]
      · have hb : (j == k) = false := by simp [hj]
        simp [List.lookup_cons, hb, ih]

lemma updPlayer_updPlayer (m : PlayerMap) (i : ℕ) (f g : Player → Player) :
    updPlayer (updPlayer m i f) i g = updPlayer m i fun q => g (f q) := by
  induction m with
  | nil => rfl
  | cons e t ih =>
    rw [updPlayer_cons, updPlayer_cons, updPlayer_cons, ih]
    by_cases h : e.1 = i
    · rw [if_pos h, if_pos h, if_pos h]
    · rw [if_neg h, if_neg h, if_neg h]

lemma mem_updPlayer_ne {m : PlayerMap} {i : ℕ} {f : Player → Player} {e : ℕ × Player}
    (hm : e ∈ updPlayer m i f) (hne : e.1 ≠ i) : e ∈ m := by
  rcases List.mem_map.1 hm with ⟨e2, he2, heq⟩
  by_cases h : e2.1 = i
  · rw [if_pos h] at heq
    subst heq
    simp at hne
    exact absurd h hne
  · rw [if_neg h] at heq
    subst heq
    exact he2

lemma lookup_mem {l : PlayerMap} {a : ℕ} {b : Player}
    (h : List.lookup a l = some b) : (a, b) ∈ l := by
  induction l with
  | nil => simp at h
  | cons e t ih =>
    obtain ⟨k, v⟩ := e
    by_cases hk : a = k
    · subst hk
      simp [List.lookup_cons] at h
      subst h
      exact List.mem_cons_self _ _
    · have hb : (a == k) = false := by simp [hk]
      rw [List.lookup_cons] at h
      rw [hb] at h
      simp at h
      exact List.mem_cons_of_mem _ (ih h)

lemma mem_keys_lookup {l : PlayerMap} {a : ℕ} (h : a ∈ l.map Prod.fst) :
    ∃ b, List.lookup a l = some b := by
  induction l with
  | nil => simp at h
  | cons e t ih =>
    obtain ⟨k, v⟩ := e
    by_cases hk : a = k
    · subst hk
      exact ⟨v, by simp [List.lookup_cons]⟩
    · simp only [List.map_cons, List.mem_cons] at h
      rcases h with h | h
      · exact absurd h hk
      · rcases ih h with ⟨b, hb⟩
        have hbe : (a == k) = false := by simp [hk]
        exact ⟨b, by rw [List.lookup_cons, hbe]; simpa using hb⟩

/-! ### Helper lemmas: spawn placement -/

lemma findSafeLoc_cons_safe (m : PlayerMap) (a b : ℕ) (rest : List (ℕ × ℕ))
    (h : isSafeLoc m ((a % WWIDTH : ℕ) : ℤ) ((b % WHEIGHT : ℕ) : ℤ)) :
    findSafeLoc m ((a, b) :: rest) =
      some ((((a % WWIDTH : ℕ) : ℤ), ((b % WHEIGHT : ℕ) : ℤ)), rest) := by
  rw [findSafeLoc, if_pos h]

lemma findSafeLoc_sound (m : PlayerMap) (rnd : List (ℕ × ℕ)) :
    ∀ {x y : ℤ} {r2 : List (ℕ × ℕ)},
      findSafeLoc m rnd = some ((x, y), r2) →
      isSafeLoc m x y ∧ 0 ≤ x ∧ x < (WWIDTH : ℤ) ∧ 0 ≤ y ∧ y < (WHEIGHT : ℤ) := by
  induction rnd with
  | nil => intro x y r2 h; simp [findSafeLoc] at h
  | cons ab rest ih =>
    intro x y r2 h
    obtain ⟨a, b⟩ := ab
    rw [findSafeLoc] at h
    by_cases hs : isSafeLoc m ((a % WWIDTH : ℕ) : ℤ) ((b % WHEIGHT : ℕ) : ℤ)
    · rw [if_pos hs] at h
      injection h with h
      injection h with h1 h2
      injection h1 with hx hy
      subst hx
      subst hy
      refine ⟨hs, Int.ofNat_nonneg _, ?_, Int.ofNat_nonneg _, ?_⟩
      · exact_mod_cast Nat.mod_lt a (show 0 < WWIDTH by decide)
      · exact_mod_cast Nat.mod_lt b (show 0 < WHEIGHT by decide)
    · rw [if_neg hs] at h
      exact ih h

lemma findSafeBall_cons_safe (m : PlayerMap) (a b c : ℕ) (rest : List (ℕ × ℕ × ℕ))
    (h : isSafeLoc m ((a % WWIDTH : ℕ) : ℤ) ((b % WHEIGHT : ℕ) : ℤ)) :
    findSafeBall m ((a, b, c) :: rest) =
      some ((((a % WWIDTH : ℕ) : ℤ), ((b % WHEIGHT : ℕ) : ℤ),
             COLORS.getD (c % COLORS.length) (0, 0, 0)), rest) := by
  rw [findSafeBall, if_pos h]

lemma createBalls_length (m : PlayerMap) (n : ℕ) :
    ∀ (rnd : List (ℕ × ℕ × ℕ)) (l : List Ball),
      createBalls m n rnd = some l → l.length = n := by
  induction n with
  | zero =>
    intro rnd l h
    simp [createBalls] at h
    simp [← h]
  | succ n ih =>
    intro rnd l h
    rw [createBalls] at h
    cases hfb : findSafeBall m rnd with
    | none => rw [hfb] at h; simp at h
    | some br =>
      obtain ⟨b, rest⟩ := br
      rw [hfb] at h
      simp only [Option.map_eq_some'] at h
      rcases h with ⟨bs, hbs, hl⟩
      rw [← hl]
      simp [ih rest bs hbs]

lemma createBalls_replicate (m : PlayerMap) (a b c : ℕ)
    (h : isSafeLoc m ((a % WWIDTH : ℕ) : ℤ) ((b % WHEIGHT : ℕ) : ℤ)) :
    ∀ n : ℕ, createBalls m n (List.replicate n (a, b, c)) =
      some (List.replicate n (((a % WWIDTH : ℕ) : ℤ), ((b % WHEIGHT : ℕ) : ℤ),
            COLORS.getD (c % COLORS.length) (0, 0, 0)))
  | 0 => by simp [createBalls]
  | n + 1 => by
    rw [List.replicate_succ, createBalls, findSafeBall_cons_safe m a b c _ h]
    simp [createBalls_replicate m a b c h n, List.replicate_succ]

/-! ### Helper lemmas: the ball loop -/

lemma foodPhase_general (px py : ℤ) (ps : ℝ) :
    ∀ (l acc : List Ball) (s : ℝ),
      (∀ b ∈ acc, ¬ ballEatCond px py ps b) →
      foodPhase px py ps l (acc ++ l) s =
        (acc ++ l.filter (fun b => !(decide (ballEatCond px py ps b))),
         s + 0.5 * ((l.countP fun b => decide (ballEatCond px py ps b) : ℕ) : ℝ)) := by
  intro l
  induction l with
  | nil =>
    intro acc s hacc
    simp [foodPhase]
  | cons b rest ih =>
    intro acc s hacc
    by_cases hq : ballEatCond px py ps b
    · rw [foodPhase, if_pos hq]
      have hnb : b ∉ acc := fun hb => hacc b hb hq
      have herase : (acc ++ b :: rest).erase b = acc ++ rest := by
        rw [List.erase_append_right _ (by simpa using hnb), List.erase_cons_head]
      rw [herase, ih acc (s + 0.5) hacc, Prod.mk.injEq]
      refine ⟨by simp [List.filter_cons, hq], ?_⟩
      simp [List.countP_cons, hq]
      ring
    · rw [foodPhase, if_neg hq]
      have hmv : acc ++ b :: rest = (acc ++ [b]) ++ rest := by simp
      rw [hmv, ih (acc ++ [b]) s ?hacc2]
      case hacc2 =>
        intro b2 hb2
        rcases List.mem_append.1 hb2 with h | h
        · exact hacc b2 h
        · simp at h
          subst h
          exact hq
      rw [Prod.mk.injEq]
      exact ⟨by simp [List.filter_cons, hq], by simp [List.countP_cons, hq]⟩

lemma foodPhase_spec (px py : ℤ) (ps : ℝ) (balls : List Ball) (s : ℝ) :
    foodPhase px py ps balls balls s =
      (balls.filter (fun b => !(decide (ballEatCond px py ps b))),
       s + 0.5 * ((balls.countP fun b => decide (ballEatCond px py ps b) : ℕ) : ℝ)) := by
  have := foodPhase_general px py ps balls [] s (by simp)
  simpa using this

lemma foodPhase_score_ge (px py : ℤ) (ps : ℝ) (balls : List Ball) (s : ℝ) :
    s ≤ (foodPhase px py ps balls balls s).2 := by
  rw [foodPhase_spec]
  have : (0 : ℝ) ≤ 0.5 * ((balls.countP fun b => decide (ballEatCond px py ps b) : ℕ) : ℝ) := by
    positivity
  simp
  linarith

/-! ### Helper lemmas: the player loop -/

lemma playerPhase_nil (pid : ℕ) (px py : ℤ) (ps : ℝ) (m : PlayerMap) (rnd : List (ℕ × ℕ)) :
    playerPhase pid px py ps [] m rnd = some (m, rnd) := rfl

lemma playerPhase_self (pid : ℕ) (px py : ℤ) (ps : ℝ) (rest : List ℕ) (m : PlayerMap)
    (rnd : List (ℕ × ℕ)) :
    playerPhase pid px py ps (pid :: rest) m rnd = playerPhase pid px py ps rest m rnd := by
  rw [playerPhase, if_pos rfl]

lemma playerPhase_noeat {oid pid : ℕ} (px py : ℤ) (ps : ℝ) (rest : List ℕ) (m : PlayerMap)
    (rnd : List (ℕ × ℕ)) {o : Player} (hne : oid ≠ pid) (ho : List.lookup oid m = some o)
    (hc : ¬ eatCond px py ps o) :
    playerPhase pid px py ps (oid :: rest) m rnd = playerPhase pid px py ps rest m rnd := by
  rw [playerPhase, if_neg hne, ho]
  simp only []
  rw [if_neg hc]

lemma playerPhase_eat {oid pid : ℕ} (px py : ℤ) (ps : ℝ) (rest : List ℕ) (m : PlayerMap)
    (rnd : List (ℕ × ℕ)) {o : Player} (hne : oid ≠ pid) (ho : List.lookup oid m = some o)
    (hc : eatCond px py ps o) {nx ny : ℤ} {rnd2 : List (ℕ × ℕ)}
    (hloc : findSafeLoc
      (updPlayer (updPlayer m pid fun q => { q with score := Real.sqrt (ps ^ 2 + o.score ^ 2) })
        oid fun q => { q with score := 0 }) rnd = some ((nx, ny), rnd2)) :
    playerPhase pid px py ps (oid :: rest) m rnd =
      playerPhase pid px py ps rest
        (updPlayer
          (updPlayer (updPlayer m pid fun q => { q with score := Real.sqrt (ps ^ 2 + o.score ^ 2) })
            oid fun q => { q with score := 0 })
          oid fun q => { q with x := nx, y := ny }) rnd2 := by
  rw [playerPhase, if_neg hne, ho]
  simp only []
  rw [if_pos hc, hloc]

lemma playerPhase_skip_all (pid : ℕ) (px py : ℤ) (ps : ℝ) (ids : List ℕ) (m : PlayerMap)
    (rnd : List (ℕ × ℕ))
    (h : ∀ oid ∈ ids, oid = pid ∨ ∃ o, List.lookup oid m = some o ∧ ¬ eatCond px py ps o) :
    playerPhase pid px py ps ids m rnd = some (m, rnd) := by
  induction ids with
  | nil => rfl
  | cons oid rest ih =>
    rcases h oid (List.mem_cons_self _ _) with hp | ⟨o, ho, hc⟩
    · subst hp
      rw [playerPhase_self]
      exact ih fun i hi => h i (List.mem_cons_of_mem _ hi)
    · by_cases hep : oid = pid
      · subst hep
        rw [playerPhase_self]
        exact ih fun i hi => h i (List.mem_cons_of_mem _ hi)
      · rw [playerPhase_noeat px py ps rest m rnd hep ho hc]
        exact ih fun i hi => h i (List.mem_cons_of_mem _ hi)

lemma playerPhase_skip_front (pid : ℕ) (px py : ℤ) (ps : ℝ) (pre rest : List ℕ)
    (m : PlayerMap) (rnd : List (ℕ × ℕ))
    (h : ∀ oid ∈ pre, oid = pid ∨ ∃ o, List.lookup oid m = some o ∧ ¬ eatCond px py ps o) :
    playerPhase pid px py ps (pre ++ rest) m rnd = playerPhase pid px py ps rest m rnd := by
  induction pre with
  | nil => rfl
  | cons oid t ih =>
    rcases h oid (List.mem_cons_self _ _) with hp | ⟨o, ho, hc⟩
    · subst hp
      rw [List.cons_append, playerPhase_self]
      exact ih fun i hi => h i (List.mem_cons_of_mem _ hi)
    · by_cases hep : oid = pid
      · subst hep
        rw [List.cons_append, playerPhase_self]
        exact ih fun i hi => h i (List.mem_cons_of_mem _ hi)
      · rw [List.cons_append, playerPhase_noeat px py ps (t ++ rest) m rnd hep ho hc]
        exact ih fun i hi => h i (List.mem_cons_of_mem _ hi)

lemma playerPhase_unique_eat (pid : ℕ) (px py : ℤ) (ps : ℝ) (pre post : List ℕ)
    (m : PlayerMap) (rnd : List (ℕ × ℕ)) (ob : ℕ) (o : Player)
    (hne : ob ≠ pid) (ho : List.lookup ob m = some o) (hc : eatCond px py ps o)
    (hrest : ∀ oid ∈ pre ++ post,
      oid = pid ∨ ∃ o2, List.lookup oid m = some o2 ∧ ¬ eatCond px py ps o2)
    {nx ny : ℤ} {rnd2 : List (ℕ × ℕ)}
    (hloc : findSafeLoc
      (updPlayer (updPlayer m pid fun q => { q with score := Real.sqrt (ps ^ 2 + o.score ^ 2) })
        ob fun q => { q with score := 0 }) rnd = some ((nx, ny), rnd2)) :
    playerPhase pid px py ps (pre ++ ob :: post) m rnd =
      some (updPlayer
        (updPlayer (updPlayer m pid fun q => { q with score := Real.sqrt (ps ^ 2 + o.score ^ 2) })
          ob fun q => { q with score := 0 })
        ob fun q => { q with x := nx, y := ny }, rnd2) := by
  have hpost : ∀ oid ∈ post, oid = pid ∨ ∃ o2,
      List.lookup oid
        (updPlayer
          (updPlayer (updPlayer m pid fun q => { q with score := Real.sqrt (ps ^ 2 + o.score ^ 2) })
            ob fun q => { q with score := 0 })
          ob fun q => { q with x := nx, y := ny }) = some o2 ∧ ¬ eatCond px py ps o2 := by
    intro oid hoid
    rcases hrest oid (List.mem_append_right _ hoid) with hp | ⟨o2, ho2, hc2⟩
    · exact Or.inl hp
    · by_cases hp : oid = pid
      · exact Or.inl hp
      · have hob : oid ≠ ob := by
          intro he
          subst he
          rw [ho] at ho2
          injection ho2 with he2
          subst he2
          exact hc2 hc
        refine Or.inr ⟨o2, ?_, hc2⟩
        rw [lookup_updPlayer_ne _ _ _ _ hob, lookup_updPlayer_ne _ _ _ _ hob,
            lookup_updPlayer_ne _ _ _ _ hp]
        exact ho2
  rw [playerPhase_skip_front pid px py ps pre (ob :: post) m rnd
      (fun i hi => hrest i (List.mem_append_left _ hi))]
  rw [playerPhase_eat px py ps post m rnd hne ho hc hloc]
  exact playerPhase_skip_all pid px py ps post _ rnd2 hpost

lemma checkCollisions_eq (players : PlayerMap) (balls : List Ball) (pid : ℕ)
    (rnd : List (ℕ × ℕ)) (p : Player) (hp : List.lookup pid players = some p) :
    checkCollisions players balls pid rnd =
      (playerPhase pid p.x p.y p.score (players.map Prod.fst)
          (updPlayer players pid fun q =>
            { q with score := (foodPhase p.x p.y p.score balls balls p.score).2 }) rnd).map
        fun r => (r.1, (foodPhase p.x p.y p.score balls balls p.score).1, r.2) := by
  unfold checkCollisions
  rw [hp]

/-! ### Helper lemmas: chat log and clock -/

lemma addChatMessage_length_le {hist : List String} (msg : String)
    (h : hist.length ≤ 20) : (addChatMessage hist msg).length ≤ 20 := by
  unfold addChatMessage
  by_cases hl : (hist ++ [msg]).length > 20
  · rw [if_pos hl]
    simp at hl ⊢
    omega
  · rw [if_neg hl]
    simp at hl ⊢
    omega

lemma foldl_addChatMessage :
    ∀ (msgs hist : List String), hist.length ≤ 20 →
      List.foldl addChatMessage hist msgs =
        (hist ++ msgs).drop (hist.length + msgs.length - 20)
  | [], hist => by
    intro h
    simp only [List.foldl_nil, List.append_nil, List.length_nil, Nat.add_zero]
    rw [show hist.length - 20 = 0 by omega, List.drop_zero]
  | m :: ms, hist => by
    intro h
    rw [List.foldl_cons]
    rcases Nat.lt_or_ge hist.length 20 with hlt | hge
    · have hadd : addChatMessage hist m = hist ++ [m] := by
        unfold addChatMessage
        rw [if_neg (by simp; omega)]
      rw [hadd, foldl_addChatMessage ms (hist ++ [m]) (by simp; omega)]
      have hL : (hist ++ [m]) ++ ms = hist ++ m :: ms := by simp
      rw [hL]
      congr 1
      simp
      omega
    · have h20 : hist.length = 20 := le_antisymm h hge
      have hadd : addChatMessage hist m = (hist ++ [m]).drop 1 := by
        unfold addChatMessage
        rw [if_pos (by simp; omega)]
      have hlen2 : ((hist ++ [m]).drop 1).length = 20 := by simp [h20]
      rw [hadd, foldl_addChatMessage ms _ (le_of_eq hlen2), hlen2]
      rw [← List.drop_append_of_le_length (by simp), List.drop_drop]
      have hL : (hist ++ [m]) ++ ms = hist ++ m :: ms := by simp
      rw [hL]
      congr 1
      simp [h20]
      omega

lemma updateGameState_not_started {st : ServerState} (now : ℚ)
    (h : st.gameStarted = false) : updateGameState st now = st := by
  rw [updateGameState, if_neg (by simp [h])]

lemma updateGameState_started {st : ServerState} (now : ℚ) (h : st.gameStarted = true) :
    updateGameState st now =
      if Int.fdiv (round (now - st.startTime)) MASS_LOSS_TIME = st.nextMassLossTick then
        { st with gameTime := round (now - st.startTime),
                  gameStarted := decide (round (now - st.startTime) < ROUND_TIME),
                  nextMassLossTick := st.nextMassLossTick + 1,
                  players := decayAll st.players }
      else { st with gameTime := round (now - st.startTime),
                     gameStarted := decide (round (now - st.startTime) < ROUND_TIME) } := by
  rw [updateGameState, if_pos h]

/-! ### Helper lemmas: concrete distance comparisons -/

lemma hypot_perfect {dx dy c : ℝ} (hc : 0 ≤ c) (h : dx ^ 2 + dy ^ 2 = c ^ 2) :
    hypot dx dy = c := by
  rw [hypot, h, Real.sqrt_sq hc]

lemma not_hypot_le_of {dx dy r c : ℝ} (hc : 0 ≤ c) (hrc : r < c)
    (h : c ^ 2 ≤ dx ^ 2 + dy ^ 2) : ¬(hypot dx dy ≤ r) := by
  rw [not_le, hypot]
  exact lt_of_lt_of_le hrc ((Real.le_sqrt hc (by positivity)).2 h)

lemma hypot_nonneg (dx dy : ℝ) : 0 ≤ hypot dx dy := Real.sqrt_nonneg _

/-! ### Helper lemmas: fields untouched by the clock update -/

lemma updateGameState_balls (st : ServerState) (now : ℚ) :
    (updateGameState st now).balls = st.balls := by
  cases h : st.gameStarted
  · rw [updateGameState_not_started now h]
  · rw [updateGameState_started now h]
    split <;> rfl

lemma updateGameState_msgs (st : ServerState) (now : ℚ) :
    (updateGameState st now).msgHistory = st.msgHistory := by
  cases h : st.gameStarted
  · rw [updateGameState_not_started now h]
  · rw [updateGameState_started now h]
    split <;> rfl

lemma decayAll_positions (m : PlayerMap) :
    (decayAll m).map (fun e => (e.1, e.2.x, e.2.y, e.2.color, e.2.name)) =
      m.map fun e => (e.1, e.2.x, e.2.y, e.2.color, e.2.name) := by
  induction m with
  | nil => rfl
  | cons e t ih =>
    by_cases h : e.2.score > 8 <;> simp [decayAll, h] at ih ⊢ <;> exact ih

lemma updateGameState_positions (st : ServerState) (now : ℚ) :
    (updateGameState st now).players.map (fun e => (e.1, e.2.x, e.2.y, e.2.color, e.2.name)) =
      st.players.map fun e => (e.1, e.2.x, e.2.y, e.2.color, e.2.name) := by
  cases h : st.gameStarted
  · rw [updateGameState_not_started now h]
  · rw [updateGameState_started now h]
    split
    · exact decayAll_positions st.players
    · rfl

/-! ### Claims -/

/-- Claim C7: the chat log never exceeds 20 entries after any append (the cap
is maintained by evicting the oldest entry first), and after 25 sequential
messages the log contains exactly the last 20 in original insertion order. -/
theorem claim7_chat_log_cap :
    (∀ (hist : List String) (msg : String), hist.length ≤ 20 →
        (addChatMessage hist msg).length ≤ 20) ∧
    (∀ msgs : List String, msgs.length = 25 →
        List.foldl addChatMessage [] msgs = msgs.drop 5) := by
  refine ⟨fun hist msg h => addChatMessage_length_le msg h, fun msgs h25 => ?_⟩
  rw [foldl_addChatMessage msgs [] (by simp)]
  simp [h25]

/-- Witness for C7 at a concrete input: 25 messages starting from the empty
log leave exactly the last 20. -/
theorem claim7_chat_log_cap_witness :
    (List.replicate 25 "hello").length = 25 ∧
    List.foldl addChatMessage [] (List.replicate 25 "hello") =
      (List.replicate 25 "hello").drop 5 :=
  ⟨by simp, claim7_chat_log_cap.2 _ (by simp)⟩

/-- Claim C10: a command that decodes but starts with neither `move` nor
`msg` does not terminate the session; the handler applies only the
round-clock/decay update (food, chat log and all player positions are
unchanged) and still replies with a full snapshot. -/
theorem claim10_unknown_command (st : ServerState) (pid : ℕ) (cmd : String) (now : ℚ)
    (reloRnd : List (ℕ × ℕ)) (ballRnd : List (ℕ × ℕ × ℕ)) (countSeed : ℕ)
    (hm : strStarts "move".data cmd.data = false)
    (hs : strStarts "msg".data cmd.data = false) :
    handleCommand st pid cmd now reloRnd ballRnd countSeed =
      some (updateGameState st now, snapOf (updateGameState st now)) ∧
    (updateGameState st now).balls = st.balls ∧
    (updateGameState st now).msgHistory = st.msgHistory ∧
    (updateGameState st now).players.map (fun e => (e.1, e.2.x, e.2.y, e.2.color, e.2.name)) =
      st.players.map (fun e => (e.1, e.2.x, e.2.y, e.2.color, e.2.name)) := by
  refine ⟨?_, updateGameState_balls st now, updateGameState_msgs st now,
    updateGameState_positions st now⟩
  simp [handleCommand, hm, hs]

/-- Witness for C10 at a concrete input: the command `"ping"` on the initial
state is answered with a snapshot and the state is unchanged. -/
theorem claim10_unknown_command_witness :
    strStarts "move".data "ping".data = false ∧
    strStarts "msg".data "ping".data = false ∧
    handleCommand (initState []) 0 "ping" 1 [] [] 0 =
      some (updateGameState (initState []) 1, snapOf (updateGameState (initState []) 1)) :=
  ⟨by decide, by decide,
    (claim10_unknown_command (initState []) 0 "ping" 1 [] [] 0 (by decide) (by decide)).1⟩

/-- The concrete decay scenario of C4: one player holding score 100, round
started at time 0, decay counter at its initial value 1. -/
noncomputable def c4Player : Player :=
  { x := 100, y := 100, color := (255, 0, 0), score := 100, name := "P" }

/-- Server state for the C4 scenarios. -/
noncomputable def c4State : ServerState :=
  { players := [(0, c4Player)], balls := [], msgHistory := [], gameTime := 0,
    startTime := 0, gameStarted := true, nextMassLossTick := 1, playerIdCounter := 1 }

/-- Counterexample to C4 as stated: at elapsed time 15 s the quotient
`15 // 7 = 2` has advanced to an interval the clock never processed (the
counter still holds its initial value 1), yet no decay is applied — the
player's score stays 100 instead of the claimed `floor(100 × 0.95) = 95`. -/
theorem claim4_decay_counterexample :
    Int.fdiv (round ((15 : ℚ) - c4State.startTime)) MASS_LOSS_TIME = 2 ∧
    c4State.nextMassLossTick = 1 ∧
    (updateGameState c4State 15).players.map (fun e => e.2.score) = [100] ∧
    (100 : ℝ) ≠ 95 := by
  have h1 : round ((15 : ℚ) - c4State.startTime) = 15 := by norm_num [c4State]
  refine ⟨by rw [h1]; decide, rfl, ?_, by norm_num⟩
  rw [updateGameState_started _ rfl, h1, if_neg (by decide)]
  rfl

/-- Claim C4 amended: decay fires exactly when `game_time // 7` *equals* the
decay counter (which then increments by one); when the quotient differs from
the counter — including when it has skipped past it — no decay is applied
and the counter does not move.  The concrete sequence of the claim holds:
score 100 observed at 6 s, then 8 s (boundary crossed exactly) shows 95, and
still 95 at 13 s. -/
theorem claim4_decay_amended :
    (∀ (st : ServerState) (now : ℚ), st.gameStarted = true →
      (Int.fdiv (round (now - st.startTime)) MASS_LOSS_TIME = st.nextMassLossTick →
        (updateGameState st now).players = decayAll st.players ∧
        (updateGameState st now).nextMassLossTick = st.nextMassLossTick + 1) ∧
      (Int.fdiv (round (now - st.startTime)) MASS_LOSS_TIME ≠ st.nextMassLossTick →
        (updateGameState st now).players = st.players ∧
        (updateGameState st now).nextMassLossTick = st.nextMassLossTick)) ∧
    (updateGameState c4State 6).players.map (fun e => e.2.score) = [100] ∧
    (updateGameState (updateGameState c4State 6) 8).players.map (fun e => e.2.score) = [95] ∧
    (updateGameState (updateGameState (updateGameState c4State 6) 8) 13).players.map
      (fun e => e.2.score) = [95] := by
  have hgen : ∀ (st : ServerState) (now : ℚ), st.gameStarted = true →
      (Int.fdiv (round (now - st.startTime)) MASS_LOSS_TIME = st.nextMassLossTick →
        (updateGameState st now).players = decayAll st.players ∧
        (updateGameState st now).nextMassLossTick = st.nextMassLossTick + 1) ∧
      (Int.fdiv (round (now - st.startTime)) MASS_LOSS_TIME ≠ st.nextMassLossTick →
        (updateGameState st now).players = st.players ∧
        (updateGameState st now).nextMassLossTick = st.nextMassLossTick) := by
    intro st now h
    rw [updateGameState_started now h]
    constructor
    · intro htick
      rw [if_pos htick]
      exact ⟨rfl, rfl⟩
    · intro htick
      rw [if_neg htick]
      exact ⟨rfl, rfl⟩
  have hu1 : updateGameState c4State 6 =
      { players := [(0, c4Player)], balls := [], msgHistory := [], gameTime := 6,
        startTime := 0, gameStarted := true, nextMassLossTick := 1, playerIdCounter := 1 } := by
    have h1 : round ((6 : ℚ) - c4State.startTime) = 6 := by norm_num [c4State]
    rw [updateGameState_started _ rfl, h1, if_neg (by decide)]
    rfl
  have hdecay : decayAll [(0, c4Player)] = [(0, { c4Player with score := 95 })] := by
    unfold decayAll
    rw [List.map_cons]
    rw [if_pos (by norm_num [c4Player])]
    have hfl : (⌊c4Player.score * 0.95⌋ : ℤ) = 95 := by norm_num [c4Player]
    rw [List.map_nil, hfl]
    norm_num
  have hu2 : updateGameState (updateGameState c4State 6) 8 =
      { players := [(0, { c4Player with score := 95 })], balls := [], msgHistory := [],
        gameTime := 8, startTime := 0, gameStarted := true, nextMassLossTick := 2,
        playerIdCounter := 1 } := by
    rw [hu1]
    have h1 : round ((8 : ℚ) - (0 : ℚ)) = 8 := by norm_num
    rw [updateGameState_started _ rfl]
    simp only []
    rw [h1, if_pos (by decide)]
    simp only [hdecay]
    rfl
  have hu3 : updateGameState (updateGameState (updateGameState c4State 6) 8) 13 =
      { players := [(0, { c4Player with score := 95 })], balls := [], msgHistory := [],
        gameTime := 13, startTime := 0, gameStarted := true, nextMassLossTick := 2,
        playerIdCounter := 1 } := by
    rw [hu2]
    have h1 : round ((13 : ℚ) - (0 : ℚ)) = 13 := by norm_num
    rw [updateGameState_started _ rfl]
    simp only []
    rw [h1, if_neg (by decide)]
    rfl
  refine ⟨hgen, ?_, ?_, ?_⟩
  · rw [hu1]; simp [c4Player]
  · rw [hu2]; simp
  · rw [hu3]; simp

/-- Witness for the amended C4 at a concrete input: at 8 s the quotient
equals the counter, so decay fires and the counter increments. -/
theorem claim4_decay_amended_witness :
    c4State.gameStarted = true ∧
    Int.fdiv (round ((8 : ℚ) - c4State.startTime)) MASS_LOSS_TIME = c4State.nextMassLossTick ∧
    ((updateGameState c4State 8).players = decayAll c4State.players ∧
     (updateGameState c4State 8).nextMassLossTick = c4State.nextMassLossTick + 1) := by
  have h8 : round ((8 : ℚ) - c4State.startTime) = 8 := by norm_num [c4State]
  have htick : Int.fdiv (round ((8 : ℚ) - c4State.startTime)) MASS_LOSS_TIME =
      c4State.nextMassLossTick := by rw [h8]; decide
  exact ⟨rfl, htick, (claim4_decay_amended.1 c4State 8 rfl).1 htick⟩

/-! ### Helper lemmas: evaluating the collision conditions -/

lemma ballEatCond_holds {px py bx bz : ℤ} {ps c : ℝ} (hc : 0 ≤ c)
    (hsq : (((px - bx : ℤ) : ℝ)) ^ 2 + (((py - bz : ℤ) : ℝ)) ^ 2 = c ^ 2)
    (hle : c ≤ START_RADIUS + ps) (col : ℕ × ℕ × ℕ) :
    ballEatCond px py ps (bx, bz, col) := by
  unfold ballEatCond
  rw [hypot_perfect hc hsq]
  exact hle

lemma ballEatCond_fails {px py bx bz : ℤ} {ps c : ℝ} (hc : 0 ≤ c)
    (hlt : START_RADIUS + ps < c)
    (hsq : c ^ 2 ≤ (((px - bx : ℤ) : ℝ)) ^ 2 + (((py - bz : ℤ) : ℝ)) ^ 2)
    (col : ℕ × ℕ × ℕ) : ¬ ballEatCond px py ps (bx, bz, col) :=
  not_hypot_le_of hc hlt hsq

lemma eatCond_holds {px py : ℤ} {ps c : ℝ} {o : Player} (h1 : o.score * 1.15 < ps)
    (hc : 0 ≤ c) (hsq : (((px - o.x : ℤ) : ℝ)) ^ 2 + (((py - o.y : ℤ) : ℝ)) ^ 2 = c ^ 2)
    (hlt : c < START_RADIUS + ps) : eatCond px py ps o :=
  ⟨h1, by rw [hypot_perfect hc hsq]; exact hlt⟩

lemma eatCond_fails_score {px py : ℤ} {ps : ℝ} {o : Player} (h1 : ps ≤ o.score * 1.15) :
    ¬ eatCond px py ps o := fun hc => absurd hc.1 (not_lt.2 h1)

lemma eatCond_fails_far {px py : ℤ} {ps c : ℝ} {o : Player}
    (hrc : START_RADIUS + ps ≤ c) (hc : 0 ≤ c)
    (hsq : c ^ 2 ≤ (((px - o.x : ℤ) : ℝ)) ^ 2 + (((py - o.y : ℤ) : ℝ)) ^ 2) :
    ¬ eatCond px py ps o := fun h =>
  absurd h.2 (not_lt.2 (le_trans hrc ((Real.le_sqrt hc (by positivity)).2 hsq)))

lemma isSafeLoc_nil (x y : ℤ) : isSafeLoc [] x y := by
  intro e he
  simp at he

lemma isSafeLoc_cons {m : PlayerMap} {x y : ℤ} {k : ℕ} {p : Player}
    (hh : ¬(hypot ((x - p.x : ℤ) : ℝ) ((y - p.y : ℤ) : ℝ) ≤ START_RADIUS + p.score))
    (ht : isSafeLoc m x y) : isSafeLoc ((k, p) :: m) x y := by
  intro e he
  rcases List.mem_cons.1 he with h | h
  · subst h
    exact hh
  · exact ht e h

/-- Claim C3 scenario: one player of score 3 (radius 10) with two balls in
range and one out of range. -/
noncomputable def c3Player : Player :=
  { x := 100, y := 100, color := (255, 0, 0), score := 3, name := "A" }

/-- The player map of the C3 scenario. -/
noncomputable def c3Players : PlayerMap := [(0, c3Player)]

/-- The ball list of the C3 scenario: distances 5, 0 and √20000 ≈ 141. -/
def c3Balls : List Ball := [(103, 104, (255, 0, 0)), (100, 100, (0, 255, 0)), (200, 200, (0, 0, 255))]

/-- Claim C3: on a move intent with the round active (which is exactly when
`_check_collisions` runs), every food item within `START_RADIUS + score` of
the acting player is removed — the resulting food list is the filter of the
old one — and the acting player's score grows by exactly 0.5 per item
consumed; the result is expressed by filter/count, so it is independent of
removal order.  The hypothesis `hnoeat` confines the claim to its own topic:
no other player is simultaneously eaten (a merge would overwrite the food
gain; that interaction is the subject of C2). -/
theorem claim3_food_consumption (players : PlayerMap) (balls : List Ball) (pid : ℕ)
    (rnd : List (ℕ × ℕ)) (p : Player)
    (hp : List.lookup pid players = some p)
    (hnoeat : ∀ e ∈ players, e.1 = pid ∨ ¬ eatCond p.x p.y p.score e.2) :
    checkCollisions players balls pid rnd =
      some (updPlayer players pid
              (fun q => { q with score := p.score +
                0.5 * ((balls.countP fun b => decide (ballEatCond p.x p.y p.score b) : ℕ) : ℝ) }),
            balls.filter (fun b => !(decide (ballEatCond p.x p.y p.score b))), rnd) := by
  rw [checkCollisions_eq players balls pid rnd p hp, foodPhase_spec]
  rw [playerPhase_skip_all pid p.x p.y p.score (players.map Prod.fst) _ rnd ?hskip]
  · simp
  case hskip =>
    intro oid hoid
    by_cases hpid : oid = pid
    · exact Or.inl hpid
    · rcases mem_keys_lookup hoid with ⟨o2, ho2⟩
      have hmem := lookup_mem ho2
      rcases hnoeat (oid, o2) hmem with h | h
      · exact Or.inl h
      · refine Or.inr ⟨o2, ?_, h⟩
        rw [lookup_updPlayer_ne _ _ _ _ hpid]
        exact ho2

/-- Witness for C3 at a concrete input: score 3 (radius 10), balls at
distances 5, 0 and ≈141; the two close balls are consumed (score 3 → 4) and
only the far ball remains. -/
theorem claim3_food_consumption_witness :
    List.lookup 0 c3Players = some c3Player ∧
    (∀ e ∈ c3Players, e.1 = 0 ∨ ¬ eatCond c3Player.x c3Player.y c3Player.score e.2) ∧
    checkCollisions c3Players c3Balls 0 [] =
      some ([(0, { c3Player with score := 4 })], [(200, 200, (0, 0, 255))], []) := by
  have hno : ∀ e ∈ c3Players, e.1 = 0 ∨ ¬ eatCond c3Player.x c3Player.y c3Player.score e.2 := by
    intro e he
    simp [c3Players] at he
    subst he
    exact Or.inl rfl
  refine ⟨rfl, hno, ?_⟩
  rw [claim3_food_consumption c3Players c3Balls 0 [] c3Player rfl hno]
  have hq1 : ballEatCond c3Player.x c3Player.y c3Player.score (103, 104, (255, 0, 0)) :=
    ballEatCond_holds (c := 5) (by norm_num) (by norm_num [c3Player])
      (by norm_num [START_RADIUS, c3Player]) _
  have hq2 : ballEatCond c3Player.x c3Player.y c3Player.score (100, 100, (0, 255, 0)) :=
    ballEatCond_holds (c := 0) le_rfl (by norm_num [c3Player])
      (by norm_num [START_RADIUS, c3Player]) _
  have hq3 : ¬ ballEatCond c3Player.x c3Player.y c3Player.score (200, 200, (0, 0, 255)) :=
    ballEatCond_fails (c := 11) (by norm_num) (by norm_num [START_RADIUS, c3Player])
      (by norm_num [c3Player]) _
  simp only [c3Balls, List.filter_cons, List.countP_cons, List.filter_nil, List.countP_nil,
    hq1, hq2, hq3, decide_eq_true_eq]
  norm_num [updPlayer, c3Players, c3Player]

lemma playerPhase_eat_fail {oid pid : ℕ} (px py : ℤ) (ps : ℝ) (rest : List ℕ) (m : PlayerMap)
    (rnd : List (ℕ × ℕ)) {o : Player} (hne : oid ≠ pid) (ho : List.lookup oid m = some o)
    (hc : eatCond px py ps o)
    (hloc : findSafeLoc
      (updPlayer (updPlayer m pid fun q => { q with score := Real.sqrt (ps ^ 2 + o.score ^ 2) })
        oid fun q => { q with score := 0 }) rnd = none) :
    playerPhase pid px py ps (oid :: rest) m rnd = none := by
  rw [playerPhase, if_neg hne, ho]
  simp only []
  rw [if_pos hc, hloc]

/-- Claim C1: on a move intent with the round active, if the eating
condition — `actingScore > otherScore × 1.15` and distance strictly below
`START_RADIUS + actingScore`, taken at the acting player's score at resolver
entry — holds for the other player `ob`, and `ob` is the only other player
satisfying it, then after the resolver `ob`'s score is 0 and it sits at a
freshly computed location that is safe with respect to every other player in
the final map, while the acting player's score is
`sqrt(actingScore² + otherScore²)`. -/
theorem claim1_eating_rule (players : PlayerMap) (balls : List Ball) (pid ob : ℕ)
    (rnd : List (ℕ × ℕ)) (a o : Player)
    (hnd : (players.map Prod.fst).Nodup)
    (hpa : List.lookup pid players = some a)
    (hob : List.lookup ob players = some o)
    (hne : ob ≠ pid)
    (hcond : eatCond a.x a.y a.score o)
    (honly : ∀ e ∈ players, e.1 = pid ∨ e.1 = ob ∨ ¬ eatCond a.x a.y a.score e.2)
    (res : PlayerMap × List Ball × List (ℕ × ℕ))
    (hres : checkCollisions players balls pid rnd = some res) :
    ∃ nx ny,
      List.lookup ob res.1 = some { o with score := 0, x := nx, y := ny } ∧
      (∃ p2, List.lookup pid res.1 = some p2 ∧
        p2.score = Real.sqrt (a.score ^ 2 + o.score ^ 2)) ∧
      (∀ e ∈ res.1, e.1 ≠ ob →
        ¬(hypot ((nx - e.2.x : ℤ) : ℝ) ((ny - e.2.y : ℤ) : ℝ) ≤ START_RADIUS + e.2.score)) := by
  rw [checkCollisions_eq players balls pid rnd a hpa] at hres
  have hobm : ob ∈ players.map Prod.fst := List.mem_map.2 ⟨(ob, o), lookup_mem hob, rfl⟩
  obtain ⟨pre, post, hsplit⟩ := List.append_of_mem hobm
  have hnd2 : ob ∉ pre ∧ ob ∉ post := by
    rw [hsplit] at hnd
    rcases List.nodup_append.1 hnd with ⟨-, hcons, hdisj⟩
    exact ⟨fun hmem => hdisj hmem (List.mem_cons_self _ _), (List.nodup_cons.1 hcons).1⟩
  have hom0 : List.lookup ob (updPlayer players pid fun q =>
      { q with score := (foodPhase a.x a.y a.score balls balls a.score).2 }) = some o := by
    rw [lookup_updPlayer_ne _ _ _ _ hne]
    exact hob
  have hrest : ∀ oid ∈ pre ++ post, oid = pid ∨ ∃ o2,
      List.lookup oid (updPlayer players pid fun q =>
        { q with score := (foodPhase a.x a.y a.score balls balls a.score).2 }) = some o2 ∧
      ¬ eatCond a.x a.y a.score o2 := by
    intro oid hoid
    by_cases hpid : oid = pid
    · exact Or.inl hpid
    · have hoid2 : oid ∈ players.map Prod.fst := by
        rw [hsplit]
        rcases List.mem_append.1 hoid with h | h
        · exact List.mem_append_left _ h
        · exact List.mem_append_right _ (List.mem_cons_of_mem _ h)
      have hoidob : oid ≠ ob := by
        intro he
        subst he
        rcases List.mem_append.1 hoid with h | h
        · exact hnd2.1 h
        · exact hnd2.2 h
      rcases mem_keys_lookup hoid2 with ⟨o2, ho2⟩
      rcases honly (oid, o2) (lookup_mem ho2) with h | h | h
      · exact Or.inl h
      · exact absurd h hoidob
      · refine Or.inr ⟨o2, ?_, h⟩
        rw [lookup_updPlayer_ne _ _ _ _ hpid]
        exact ho2
  rw [hsplit] at hres
  cases hfl : findSafeLoc
      (updPlayer (updPlayer (updPlayer players pid fun q =>
          { q with score := (foodPhase a.x a.y a.score balls balls a.score).2 })
        pid fun q => { q with score := Real.sqrt (a.score ^ 2 + o.score ^ 2) })
        ob fun q => { q with score := 0 }) rnd with
  | none =>
    rw [playerPhase_skip_front _ _ _ _ _ _ _ _
        (fun i hi => hrest i (List.mem_append_left _ hi)),
      playerPhase_eat_fail _ _ _ _ _ _ hne hom0 hcond hfl] at hres
    simp at hres
  | some locr =>
    obtain ⟨⟨nx, ny⟩, rnd2⟩ := locr
    rw [playerPhase_unique_eat pid a.x a.y a.score pre post _ rnd ob o hne hom0 hcond hrest hfl]
      at hres
    simp only [Option.map_some'] at hres
    have hres1 : res.1 = updPlayer
        (updPlayer (updPlayer (updPlayer players pid fun q =>
            { q with score := (foodPhase a.x a.y a.score balls balls a.score).2 })
          pid fun q => { q with score := Real.sqrt (a.score ^ 2 + o.score ^ 2) })
          ob fun q => { q with score := 0 })
        ob fun q => { q with x := nx, y := ny } := by
      rw [← Option.some.inj hres]
    refine ⟨nx, ny, ?_, ?_, ?_⟩
    · rw [hres1, lookup_updPlayer_self, lookup_updPlayer_self,
        lookup_updPlayer_ne _ _ _ _ hne, lookup_updPlayer_ne _ _ _ _ hne, hob]
      rfl
    · refine ⟨{ a with score := Real.sqrt (a.score ^ 2 + o.score ^ 2) }, ?_, rfl⟩
      rw [hres1, lookup_updPlayer_ne _ _ _ _ (Ne.symm hne),
        lookup_updPlayer_ne _ _ _ _ (Ne.symm hne), lookup_updPlayer_self,
        lookup_updPlayer_self, hpa]
      rfl
    · intro e he hene
      have hsafe := (findSafeLoc_sound _ rnd hfl).1
      have hem2 : e ∈ updPlayer (updPlayer (updPlayer players pid fun q =>
          { q with score := (foodPhase a.x a.y a.score balls balls a.score).2 })
        pid fun q => { q with score := Real.sqrt (a.score ^ 2 + o.score ^ 2) })
        ob fun q => { q with score := 0 } := by
        rw [hres1] at he
        exact mem_updPlayer_ne he hene
      exact hsafe e hem2

/-- C1 concrete scenario, the acting player of the claim's example. -/
noncomputable def c1A : Player := { x := 100, y := 100, color := (255, 0, 0), score := 20, name := "A" }

/-- C1 concrete scenario, the victim of the claim's example. -/
noncomputable def c1B : Player := { x := 105, y := 100, color := (255, 128, 0), score := 10, name := "B" }

/-- C1 concrete scenario, the player map. -/
noncomputable def c1Players : PlayerMap := [(0, c1A), (1, c1B)]

/-- The C1 map after the merge and the victim's zeroing. -/
noncomputable def c1Map2 : PlayerMap :=
  [(0, { c1A with score := Real.sqrt (c1A.score ^ 2 + c1B.score ^ 2) }),
   (1, { c1B with score := 0 })]

/-- The C1 map after the victim's relocation to (400, 400). -/
noncomputable def c1Map3 : PlayerMap :=
  [(0, { c1A with score := Real.sqrt (c1A.score ^ 2 + c1B.score ^ 2) }),
   (1, { c1B with score := 0, x := 400, y := 400 })]

lemma c1_sqrt_lt : Real.sqrt (c1A.score ^ 2 + c1B.score ^ 2) < 24 := by
  rw [show c1A.score ^ 2 + c1B.score ^ 2 = (500 : ℝ) by norm_num [c1A, c1B],
    Real.sqrt_lt' (by norm_num)]
  norm_num

lemma c1_safe : isSafeLoc c1Map2 400 400 := by
  refine isSafeLoc_cons ?_ (isSafeLoc_cons ?_ (isSafeLoc_nil _ _))
  · exact not_hypot_le_of (c := 31) (by norm_num)
      (by simp only [START_RADIUS]; have := c1_sqrt_lt; norm_num [c1A, c1B] at this ⊢; linarith)
      (by norm_num [c1A])
  · exact not_hypot_le_of (c := 8) (by norm_num)
      (by norm_num [START_RADIUS, c1B]) (by norm_num [c1B])

lemma c1_checkCollisions :
    checkCollisions c1Players [] 0 [(400, 400)] = some (c1Map3, [], []) := by
  have hcond : eatCond c1A.x c1A.y c1A.score c1B :=
    eatCond_holds (by norm_num [c1A, c1B]) (c := 5) (by norm_num) (by norm_num [c1A, c1B])
      (by norm_num [START_RADIUS, c1A])
  have hcx : ((400 % WWIDTH : ℕ) : ℤ) = 400 := by decide
  have hcy : ((400 % WHEIGHT : ℕ) : ℤ) = 400 := by decide
  have hloc0 : findSafeLoc c1Map2 [(400, 400)] = some ((400, 400), []) := by
    have h := findSafeLoc_cons_safe c1Map2 400 400 [] (by rw [hcx, hcy]; exact c1_safe)
    rw [hcx, hcy] at h
    exact h
  rw [checkCollisions_eq c1Players [] 0 [(400, 400)] c1A rfl]
  rw [show (updPlayer c1Players 0 fun q =>
      { q with score := (foodPhase c1A.x c1A.y c1A.score [] [] c1A.score).2 }) = c1Players
    from rfl]
  rw [show c1Players.map Prod.fst = [0, 1] from rfl]
  rw [playerPhase_self]
  rw [@playerPhase_eat 1 0 c1A.x c1A.y c1A.score [] c1Players [(400, 400)] c1B
    (by decide) rfl hcond 400 400 [] hloc0]
  rw [playerPhase_nil]
  rfl

/-- Witness for C1 at the claim's concrete input: acting player at (100,100)
with score 20, other player at (105,100) with score 10; after the resolver
the acting score is `√500` and the victim is reset to 0 and relocated to a
location safe from all current players. -/
theorem claim1_eating_rule_witness :
    (c1Players.map Prod.fst).Nodup ∧
    eatCond c1A.x c1A.y c1A.score c1B ∧
    (∀ e ∈ c1Players, e.1 = 0 ∨ e.1 = 1 ∨ ¬ eatCond c1A.x c1A.y c1A.score e.2) ∧
    Real.sqrt (c1A.score ^ 2 + c1B.score ^ 2) = Real.sqrt 500 ∧
    ∃ res, checkCollisions c1Players [] 0 [(400, 400)] = some res ∧
      ∃ nx ny,
        List.lookup 1 res.1 = some { c1B with score := 0, x := nx, y := ny } ∧
        (∃ p2, List.lookup 0 res.1 = some p2 ∧
          p2.score = Real.sqrt (c1A.score ^ 2 + c1B.score ^ 2)) ∧
        (∀ e ∈ res.1, e.1 ≠ 1 →
          ¬(hypot ((nx - e.2.x : ℤ) : ℝ) ((ny - e.2.y : ℤ) : ℝ) ≤ START_RADIUS + e.2.score)) := by
  have hcond : eatCond c1A.x c1A.y c1A.score c1B :=
    eatCond_holds (by norm_num [c1A, c1B]) (c := 5) (by norm_num) (by norm_num [c1A, c1B])
      (by norm_num [START_RADIUS, c1A])
  have honly : ∀ e ∈ c1Players, e.1 = 0 ∨ e.1 = 1 ∨ ¬ eatCond c1A.x c1A.y c1A.score e.2 := by
    intro e he
    rcases List.mem_cons.1 he with h | h
    · subst h
      exact Or.inl rfl
    · rcases List.mem_cons.1 h with h2 | h2
      · subst h2
        exact Or.inr (Or.inl rfl)
      · simp at h2
  refine ⟨by decide, hcond, honly, by norm_num [c1A, c1B], (c1Map3, [], []), c1_checkCollisions,
    claim1_eating_rule c1Players [] 0 1 [(400, 400)] c1A c1B (by decide) rfl rfl (by decide)
      hcond honly (c1Map3, [], []) c1_checkCollisions⟩

lemma beq_false_of_ne {a b : ℕ} (h : a ≠ b) : (a == b) = false := by simp [h]

/-- Claim C2 amended (the behaviour the code actually has): with three
players `a, o1, o2` where both `o1` and `o2` satisfy the eating condition
*against the acting player's score read at resolver entry* (`a.score`), both
victims are eaten, but every condition and every merge uses that stale entry
score: the final acting score is `sqrt(a.score² + o2.score²)` — the second
merge overwrites the first, and food consumed in the same tick (reflected
only in `foodPhase`) never enters any check or merge. -/
theorem claim2_stale_score_amended (pid i1 i2 : ℕ) (a o1 o2 : Player) (balls : List Ball)
    (rnd : List (ℕ × ℕ)) (x1 y1 x2 y2 : ℤ) (r1 r2 : List (ℕ × ℕ))
    (h01 : pid ≠ i1) (h02 : pid ≠ i2) (h12 : i1 ≠ i2)
    (hc1 : eatCond a.x a.y a.score o1) (hc2 : eatCond a.x a.y a.score o2)
    (hloc1 : findSafeLoc
      [(pid, { a with score := Real.sqrt (a.score ^ 2 + o1.score ^ 2) }),
       (i1, { o1 with score := 0 }), (i2, o2)] rnd = some ((x1, y1), r1))
    (hloc2 : findSafeLoc
      [(pid, { a with score := Real.sqrt (a.score ^ 2 + o2.score ^ 2) }),
       (i1, { o1 with score := 0, x := x1, y := y1 }), (i2, { o2 with score := 0 })] r1 =
      some ((x2, y2), r2)) :
    checkCollisions [(pid, a), (i1, o1), (i2, o2)] balls pid rnd =
      some ([(pid, { a with score := Real.sqrt (a.score ^ 2 + o2.score ^ 2) }),
             (i1, { o1 with score := 0, x := x1, y := y1 }),
             (i2, { o2 with score := 0, x := x2, y := y2 })],
            (foodPhase a.x a.y a.score balls balls a.score).1, r2) := by
  have h10 : i1 ≠ pid := Ne.symm h01
  have h20 : i2 ≠ pid := Ne.symm h02
  have h21 : i2 ≠ i1 := Ne.symm h12
  have hlkA : List.lookup pid [(pid, a), (i1, o1), (i2, o2)] = some a := by
    simp [List.lookup_cons]
  rw [checkCollisions_eq _ balls pid rnd a hlkA]
  have hkeys : ([(pid, a), (i1, o1), (i2, o2)] : PlayerMap).map Prod.fst = [pid, i1, i2] := rfl
  rw [hkeys]
  have hm0 : (updPlayer [(pid, a), (i1, o1), (i2, o2)] pid fun q =>
      { q with score := (foodPhase a.x a.y a.score balls balls a.score).2 }) =
      [(pid, { a with score := (foodPhase a.x a.y a.score balls balls a.score).2 }),
       (i1, o1), (i2, o2)] := by
    simp [updPlayer, h01, h02, h12, h10, h20, h21]
  rw [hm0, playerPhase_self]
  have hlk1 : List.lookup i1
      ([(pid, { a with score := (foodPhase a.x a.y a.score balls balls a.score).2 }),
        (i1, o1), (i2, o2)] : PlayerMap) = some o1 := by
    simp [List.lookup_cons, beq_false_of_ne h10]
  have hmB : (updPlayer (updPlayer
      [(pid, { a with score := (foodPhase a.x a.y a.score balls balls a.score).2 }),
       (i1, o1), (i2, o2)] pid fun q =>
        { q with score := Real.sqrt (a.score ^ 2 + o1.score ^ 2) })
      i1 fun q => { q with score := 0 }) =
      [(pid, { a with score := Real.sqrt (a.score ^ 2 + o1.score ^ 2) }),
       (i1, { o1 with score := 0 }), (i2, o2)] := by
    simp [updPlayer, h01, h02, h12, h10, h20, h21]
  have hloc1b : findSafeLoc (updPlayer (updPlayer
      [(pid, { a with score := (foodPhase a.x a.y a.score balls balls a.score).2 }),
       (i1, o1), (i2, o2)] pid fun q =>
        { q with score := Real.sqrt (a.score ^ 2 + o1.score ^ 2) })
      i1 fun q => { q with score := 0 }) rnd = some ((x1, y1), r1) := by
    rw [hmB]
    exact hloc1
  rw [@playerPhase_eat i1 pid a.x a.y a.score [i2]
    ([(pid, { a with score := (foodPhase a.x a.y a.score balls balls a.score).2 }),
      (i1, o1), (i2, o2)]) rnd o1 h10 hlk1 hc1 x1 y1 r1 hloc1b]
  have hmC : (updPlayer (updPlayer (updPlayer
      [(pid, { a with score := (foodPhase a.x a.y a.score balls balls a.score).2 }),
       (i1, o1), (i2, o2)] pid fun q =>
        { q with score := Real.sqrt (a.score ^ 2 + o1.score ^ 2) })
      i1 fun q => { q with score := 0 }) i1 fun q => { q with x := x1, y := y1 }) =
      [(pid, { a with score := Real.sqrt (a.score ^ 2 + o1.score ^ 2) }),
       (i1, { o1 with score := 0, x := x1, y := y1 }), (i2, o2)] := by
    simp [updPlayer, h01, h02, h12, h10, h20, h21]
  rw [hmC]
  have hlk2 : List.lookup i2
      ([(pid, { a with score := Real.sqrt (a.score ^ 2 + o1.score ^ 2) }),
        (i1, { o1 with score := 0, x := x1, y := y1 }), (i2, o2)] : PlayerMap) = some o2 := by
    simp [List.lookup_cons, beq_false_of_ne h20, beq_false_of_ne h21]
  have hmE : (updPlayer (updPlayer
      [(pid, { a with score := Real.sqrt (a.score ^ 2 + o1.score ^ 2) }),
       (i1, { o1 with score := 0, x := x1, y := y1 }), (i2, o2)] pid fun q =>
        { q with score := Real.sqrt (a.score ^ 2 + o2.score ^ 2) })
      i2 fun q => { q with score := 0 }) =
      [(pid, { a with score := Real.sqrt (a.score ^ 2 + o2.score ^ 2) }),
       (i1, { o1 with score := 0, x := x1, y := y1 }), (i2, { o2 with score := 0 })] := by
    simp [updPlayer, h01, h02, h12, h10, h20, h21]
  have hloc2b : findSafeLoc (updPlayer (updPlayer
      [(pid, { a with score := Real.sqrt (a.score ^ 2 + o1.score ^ 2) }),
       (i1, { o1 with score := 0, x := x1, y := y1 }), (i2, o2)] pid fun q =>
        { q with score := Real.sqrt (a.score ^ 2 + o2.score ^ 2) })
      i2 fun q => { q with score := 0 }) r1 = some ((x2, y2), r2) := by
    rw [hmE]
    exact hloc2
  rw [@playerPhase_eat i2 pid a.x a.y a.score []
    ([(pid, { a with score := Real.sqrt (a.score ^ 2 + o1.score ^ 2) }),
      (i1, { o1 with score := 0, x := x1, y := y1 }), (i2, o2)]) r1 o2 h20 hlk2 hc2 x2 y2 r2
    hloc2b]
  have hmF : (updPlayer (updPlayer (updPlayer
      [(pid, { a with score := Real.sqrt (a.score ^ 2 + o1.score ^ 2) }),
       (i1, { o1 with score := 0, x := x1, y := y1 }), (i2, o2)] pid fun q =>
        { q with score := Real.sqrt (a.score ^ 2 + o2.score ^ 2) })
      i2 fun q => { q with score := 0 }) i2 fun q => { q with x := x2, y := y2 }) =
      [(pid, { a with score := Real.sqrt (a.score ^ 2 + o2.score ^ 2) }),
       (i1, { o1 with score := 0, x := x1, y := y1 }),
       (i2, { o2 with score := 0, x := x2, y := y2 })] := by
    simp [updPlayer, h01, h02, h12, h10, h20, h21]
  rw [hmF, playerPhase_nil]
  rfl

/-- C2 scenario, acting player: score 20 at (100,100). -/
noncomputable def c2A : Player := { x := 100, y := 100, color := (255, 0, 0), score := 20, name := "A" }

/-- C2 scenario, first victim: score 10 at (105,100). -/
noncomputable def c2V1 : Player := { x := 105, y := 100, color := (255, 128, 0), score := 10, name := "B" }

/-- C2 scenario, second other player: score 18 at (110,100) — eligible
against the grown score √500 but not against the entry score 20. -/
noncomputable def c2V2 : Player := { x := 110, y := 100, color := (255, 255, 0), score := 18, name := "C" }

/-- C2 counterexample player map. -/
noncomputable def c2Players : PlayerMap := [(0, c2A), (1, c2V1), (2, c2V2)]

/-- C2 counterexample: the map after eating the first victim. -/
noncomputable def c2Map2 : PlayerMap :=
  [(0, { c2A with score := Real.sqrt (c2A.score ^ 2 + c2V1.score ^ 2) }),
   (1, { c2V1 with score := 0 }), (2, c2V2)]

/-- C2 counterexample: the final map — the second player is untouched. -/
noncomputable def c2Map3 : PlayerMap :=
  [(0, { c2A with score := Real.sqrt (c2A.score ^ 2 + c2V1.score ^ 2) }),
   (1, { c2V1 with score := 0, x := 400, y := 400 }), (2, c2V2)]

lemma c2_sqrt_lt : Real.sqrt (c2A.score ^ 2 + c2V1.score ^ 2) < 24 := by
  rw [show c2A.score ^ 2 + c2V1.score ^ 2 = (500 : ℝ) by norm_num [c2A, c2V1],
    Real.sqrt_lt' (by norm_num)]
  norm_num

lemma c2_safe : isSafeLoc c2Map2 400 400 := by
  refine isSafeLoc_cons ?_ (isSafeLoc_cons ?_ (isSafeLoc_cons ?_ (isSafeLoc_nil _ _)))
  · exact not_hypot_le_of (c := 31) (by norm_num)
      (by simp only [START_RADIUS]; have := c2_sqrt_lt; norm_num [c2A, c2V1] at this ⊢; linarith)
      (by norm_num [c2A])
  · exact not_hypot_le_of (c := 8) (by norm_num)
      (by norm_num [START_RADIUS, c2V1]) (by norm_num [c2V1])
  · exact not_hypot_le_of (c := 26) (by norm_num)
      (by norm_num [START_RADIUS, c2V2]) (by norm_num [c2V2])

lemma c2_checkCollisions :
    checkCollisions c2Players [] 0 [(400, 400)] = some (c2Map3, [], []) := by
  have hcond : eatCond c2A.x c2A.y c2A.score c2V1 :=
    eatCond_holds (by norm_num [c2A, c2V1]) (c := 5) (by norm_num) (by norm_num [c2A, c2V1])
      (by norm_num [START_RADIUS, c2A])
  have hcx : ((400 % WWIDTH : ℕ) : ℤ) = 400 := by decide
  have hcy : ((400 % WHEIGHT : ℕ) : ℤ) = 400 := by decide
  have hloc0 : findSafeLoc c2Map2 [(400, 400)] = some ((400, 400), []) := by
    have h := findSafeLoc_cons_safe c2Map2 400 400 [] (by rw [hcx, hcy]; exact c2_safe)
    rw [hcx, hcy] at h
    exact h
  rw [checkCollisions_eq c2Players [] 0 [(400, 400)] c2A rfl]
  rw [show (updPlayer c2Players 0 fun q =>
      { q with score := (foodPhase c2A.x c2A.y c2A.score [] [] c2A.score).2 }) = c2Players
    from rfl]
  rw [show c2Players.map Prod.fst = [0, 1, 2] from rfl]
  rw [playerPhase_self]
  rw [@playerPhase_eat 1 0 c2A.x c2A.y c2A.score [2] c2Players [(400, 400)] c2V1
    (by decide) rfl hcond 400 400 [] hloc0]
  rw [show (updPlayer (updPlayer (updPlayer c2Players 0 fun q =>
      { q with score := Real.sqrt (c2A.score ^ 2 + c2V1.score ^ 2) })
      1 fun q => { q with score := 0 })
      1 fun q => { q with x := 400, y := 400 }) = c2Map3 from rfl]
  rw [playerPhase_noeat c2A.x c2A.y c2A.score [] c2Map3 [] (show (2 : ℕ) ≠ 0 by decide)
    (show List.lookup 2 c2Map3 = some c2V2 from rfl)
    (eatCond_fails_score (by norm_num [c2A, c2V2]))]
  rw [playerPhase_nil]
  rfl

/-- Counterexample to C2 as stated: after eating the first victim in the
same invocation, the acting player's *current* score is √500 ≈ 22.36 and the
eating condition against the second player (score 18 at distance 10) holds
for that current score — yet the resolver leaves the second player at score
18, because the code evaluates every check and merge against the score read
at resolver entry (20), and `20 > 18 × 1.15 = 20.7` fails. -/
theorem claim2_current_score_counterexample :
    (∃ res, checkCollisions c2Players [] 0 [(400, 400)] = some res ∧
      (∃ pA, List.lookup 0 res.1 = some pA ∧ pA.score = Real.sqrt 500) ∧
      (∃ p2, List.lookup 2 res.1 = some p2 ∧ p2.score = 18 ∧ p2.x = 110 ∧ p2.y = 100)) ∧
    18 * 1.15 < Real.sqrt 500 ∧
    hypot ((c2A.x - c2V2.x : ℤ) : ℝ) ((c2A.y - c2V2.y : ℤ) : ℝ) < START_RADIUS + Real.sqrt 500 ∧
    (18 : ℝ) ≠ 0 := by
  refine ⟨⟨(c2Map3, [], []), c2_checkCollisions, ?_, ?_⟩, ?_, ?_, by norm_num⟩
  · exact ⟨_, rfl, by norm_num [c2A, c2V1]⟩
  · exact ⟨c2V2, rfl, by norm_num [c2V2], by norm_num [c2V2], by norm_num [c2V2]⟩
  · exact Real.lt_sqrt_of_sq_lt (by norm_num)
  · rw [hypot_perfect (c := 10) (by norm_num) (by norm_num [c2A, c2V2])]
    have h3 : (3 : ℝ) < Real.sqrt 500 := Real.lt_sqrt_of_sq_lt (by norm_num)
    simp only [START_RADIUS]
    linarith

/-- C2 amended-witness scenario: third player of score 12 at (110,100),
eligible against the entry score 20. -/
noncomputable def c2W2 : Player := { x := 110, y := 100, color := (255, 255, 0), score := 12, name := "D" }

/-- C2 amended-witness scenario: a single ball on the acting player. -/
def c2wBalls : List Ball := [(100, 100, (0, 255, 0))]

/-- C2 amended-witness: map after the first eat. -/
noncomputable def c2wMapB : PlayerMap :=
  [(0, { c2A with score := Real.sqrt (c2A.score ^ 2 + c2V1.score ^ 2) }),
   (1, { c2V1 with score := 0 }), (2, c2W2)]

/-- C2 amended-witness: map after the second merge and zeroing. -/
noncomputable def c2wMapE : PlayerMap :=
  [(0, { c2A with score := Real.sqrt (c2A.score ^ 2 + c2W2.score ^ 2) }),
   (1, { c2V1 with score := 0, x := 400, y := 400 }), (2, { c2W2 with score := 0 })]

lemma c2w_sqrt2_lt : Real.sqrt (c2A.score ^ 2 + c2W2.score ^ 2) < 24 := by
  rw [show c2A.score ^ 2 + c2W2.score ^ 2 = (544 : ℝ) by norm_num [c2A, c2W2],
    Real.sqrt_lt' (by norm_num)]
  norm_num

lemma c2w_safeB : isSafeLoc c2wMapB 400 400 := by
  refine isSafeLoc_cons ?_ (isSafeLoc_cons ?_ (isSafeLoc_cons ?_ (isSafeLoc_nil _ _)))
  · exact not_hypot_le_of (c := 31) (by norm_num)
      (by simp only [START_RADIUS]; have := c2_sqrt_lt; norm_num [c2A, c2V1] at this ⊢; linarith)
      (by norm_num [c2A])
  · exact not_hypot_le_of (c := 8) (by norm_num)
      (by norm_num [START_RADIUS, c2V1]) (by norm_num [c2V1])
  · exact not_hypot_le_of (c := 20) (by norm_num)
      (by norm_num [START_RADIUS, c2W2]) (by norm_num [c2W2])

lemma c2w_safeE : isSafeLoc c2wMapE 700 100 := by
  refine isSafeLoc_cons ?_ (isSafeLoc_cons ?_ (isSafeLoc_cons ?_ (isSafeLoc_nil _ _)))
  · exact not_hypot_le_of (c := 31) (by norm_num)
      (by simp only [START_RADIUS]; have := c2w_sqrt2_lt; norm_num [c2A, c2W2] at this ⊢; linarith)
      (by norm_num [c2A])
  · exact not_hypot_le_of (c := 8) (by norm_num)
      (by norm_num [START_RADIUS, c2V1]) (by norm_num [c2V1])
  · exact not_hypot_le_of (c := 8) (by norm_num)
      (by norm_num [START_RADIUS, c2W2]) (by norm_num [c2W2])

lemma c2w_loc1 : findSafeLoc c2wMapB [(400, 400), (700, 100)] = some ((400, 400), [(700, 100)]) := by
  have hcx : ((400 % WWIDTH : ℕ) : ℤ) = 400 := by decide
  have hcy : ((400 % WHEIGHT : ℕ) : ℤ) = 400 := by decide
  have h := findSafeLoc_cons_safe c2wMapB 400 400 [(700, 100)] (by rw [hcx, hcy]; exact c2w_safeB)
  rw [hcx, hcy] at h
  exact h

lemma c2w_loc2 : findSafeLoc c2wMapE [(700, 100)] = some ((700, 100), []) := by
  have hcx : ((700 % WWIDTH : ℕ) : ℤ) = 700 := by decide
  have hcy : ((100 % WHEIGHT : ℕ) : ℤ) = 100 := by decide
  have h := findSafeLoc_cons_safe c2wMapE 700 100 [] (by rw [hcx, hcy]; exact c2w_safeE)
  rw [hcx, hcy] at h
  exact h

/-- Witness for the amended C2 at a concrete input: score 20 eats victims of
scores 10 and 12 in one tick (also consuming a ball); both conditions and
both merges use the entry score 20, so the final acting score is
`√(20² + 12²) = √544` — not a cumulative merge and not including the food
gain — and both victims are zeroed and relocated. -/
theorem claim2_stale_score_amended_witness :
    eatCond c2A.x c2A.y c2A.score c2V1 ∧
    eatCond c2A.x c2A.y c2A.score c2W2 ∧
    checkCollisions [(0, c2A), (1, c2V1), (2, c2W2)] c2wBalls 0 [(400, 400), (700, 100)] =
      some ([(0, { c2A with score := Real.sqrt (c2A.score ^ 2 + c2W2.score ^ 2) }),
             (1, { c2V1 with score := 0, x := 400, y := 400 }),
             (2, { c2W2 with score := 0, x := 700, y := 100 })],
            (foodPhase c2A.x c2A.y c2A.score c2wBalls c2wBalls c2A.score).1, []) ∧
    (foodPhase c2A.x c2A.y c2A.score c2wBalls c2wBalls c2A.score).1 = [] ∧
    Real.sqrt (c2A.score ^ 2 + c2W2.score ^ 2) = Real.sqrt 544 := by
  have hc1 : eatCond c2A.x c2A.y c2A.score c2V1 :=
    eatCond_holds (by norm_num [c2A, c2V1]) (c := 5) (by norm_num) (by norm_num [c2A, c2V1])
      (by norm_num [START_RADIUS, c2A])
  have hc2 : eatCond c2A.x c2A.y c2A.score c2W2 :=
    eatCond_holds (by norm_num [c2A, c2W2]) (c := 10) (by norm_num) (by norm_num [c2A, c2W2])
      (by norm_num [START_RADIUS, c2A])
  have hfood : (foodPhase c2A.x c2A.y c2A.score c2wBalls c2wBalls c2A.score).1 = [] := by
    rw [foodPhase_spec]
    have hq : ballEatCond c2A.x c2A.y c2A.score (100, 100, (0, 255, 0)) :=
      ballEatCond_holds (c := 0) le_rfl (by norm_num [c2A]) (by norm_num [START_RADIUS, c2A]) _
    simp [c2wBalls, List.filter_cons, hq]
  refine ⟨hc1, hc2, ?_, hfood, by norm_num [c2A, c2W2]⟩
  exact claim2_stale_score_amended 0 1 2 c2A c2V1 c2W2 c2wBalls [(400, 400), (700, 100)]
    400 400 700 100 [(700, 100)] [] (by decide) (by decide) (by decide) hc1 hc2
    c2w_loc1 c2w_loc2

/-! ### The acting player's position is never modified by the resolver -/

lemma playerPhase_pid_pos (pid : ℕ) (px py : ℤ) (ps : ℝ) (ids : List ℕ) :
    ∀ (m : PlayerMap) (rnd : List (ℕ × ℕ)) (res : PlayerMap × List (ℕ × ℕ)) (q : Player),
      playerPhase pid px py ps ids m rnd = some res →
      List.lookup pid m = some q →
      ∃ q2, List.lookup pid res.1 = some q2 ∧ q2.x = q.x ∧ q2.y = q.y := by
  induction ids with
  | nil =>
    intro m rnd res q h hq
    rw [playerPhase_nil] at h
    rw [← Option.some.inj h]
    exact ⟨q, hq, rfl, rfl⟩
  | cons oid rest ih =>
    intro m rnd res q h hq
    by_cases hop : oid = pid
    · subst hop
      rw [playerPhase_self] at h
      exact ih m rnd res q h hq
    · rw [playerPhase, if_neg hop] at h
      cases hlk : List.lookup oid m with
      | none => rw [hlk] at h; simp at h
      | some o =>
        rw [hlk] at h
        simp only [] at h
        by_cases hec : eatCond px py ps o
        · rw [if_pos hec] at h
          cases hfl : findSafeLoc (updPlayer (updPlayer m pid fun q =>
              { q with score := Real.sqrt (ps ^ 2 + o.score ^ 2) })
              oid fun q => { q with score := 0 }) rnd with
          | none => rw [hfl] at h; simp at h
          | some lr =>
            obtain ⟨⟨nx, ny⟩, rnd2⟩ := lr
            rw [hfl] at h
            simp only [] at h
            have hq3 : List.lookup pid (updPlayer (updPlayer (updPlayer m pid fun q =>
                { q with score := Real.sqrt (ps ^ 2 + o.score ^ 2) })
                oid fun q => { q with score := 0 })
                oid fun q => { q with x := nx, y := ny }) =
                some { q with score := Real.sqrt (ps ^ 2 + o.score ^ 2) } := by
              rw [lookup_updPlayer_ne _ _ _ _ (Ne.symm hop),
                lookup_updPlayer_ne _ _ _ _ (Ne.symm hop), lookup_updPlayer_self, hq]
              rfl
            obtain ⟨q2, h2, hx, hy⟩ := ih _ rnd2 res _ h hq3
            exact ⟨q2, h2, hx, hy⟩
        · rw [if_neg hec] at h
          exact ih m rnd res q h hq

lemma checkCollisions_pid_pos (players : PlayerMap) (balls : List Ball) (pid : ℕ)
    (rnd : List (ℕ × ℕ)) (res : PlayerMap × List Ball × List (ℕ × ℕ)) (pl : Player)
    (h : checkCollisions players balls pid rnd = some res)
    (hlk : List.lookup pid players = some pl) :
    ∃ p, List.lookup pid res.1 = some p ∧ p.x = pl.x ∧ p.y = pl.y := by
  rw [checkCollisions_eq players balls pid rnd pl hlk] at h
  cases hpp : playerPhase pid pl.x pl.y pl.score (players.map Prod.fst)
      (updPlayer players pid fun q =>
        { q with score := (foodPhase pl.x pl.y pl.score balls balls pl.score).2 }) rnd with
  | none => rw [hpp] at h; simp at h
  | some r =>
    rw [hpp] at h
    simp only [Option.map_some'] at h
    have hq : List.lookup pid (updPlayer players pid fun q =>
        { q with score := (foodPhase pl.x pl.y pl.score balls balls pl.score).2 }) =
        some { pl with score := (foodPhase pl.x pl.y pl.score balls balls pl.score).2 } := by
      rw [lookup_updPlayer_self, hlk]
      rfl
    obtain ⟨q2, h2, hx, hy⟩ := playerPhase_pid_pos pid pl.x pl.y pl.score _ _ rnd r _ hpp hq
    refine ⟨q2, ?_, hx, hy⟩
    rw [← Option.some.inj h]
    exact h2

/-- C5 scenario: a score-0 player about to be moved to the world corner. -/
noncomputable def c5A : Player := { x := 100, y := 100, color := (255, 0, 0), score := 0, name := "A" }

/-- C5 scenario server state: round not active, enough food to skip
replenishment. -/
noncomputable def c5State : ServerState :=
  { players := [(0, c5A)], balls := List.replicate 150 (500, 500, (255, 0, 0)),
    msgHistory := [], gameTime := 0, startTime := 0, gameStarted := false,
    nextMassLossTick := 1, playerIdCounter := 1 }

set_option maxRecDepth 8192 in
/-- Counterexample to C5 as stated: the client command `move 0 0` places the
player at `(0, 0)` verbatim; with `radius = START_RADIUS + 0 = 7` the claimed
invariant `radius ≤ x` fails in the very snapshot returned. -/
theorem claim5_bounds_counterexample :
    ∃ st2 snap p, handleCommand c5State 0 "move 0 0" 1 [] [] 0 = some (st2, snap) ∧
      List.lookup 0 st2.players = some p ∧ p.x = 0 ∧ p.y = 0 ∧ p.score = 0 ∧
      ¬(START_RADIUS + p.score ≤ ((p.x : ℤ) : ℝ)) := by
  refine ⟨{ c5State with players := [(0, { c5A with x := 0, y := 0 })] },
    snapOf { c5State with players := [(0, { c5A with x := 0, y := 0 })] },
    { c5A with x := 0, y := 0 }, rfl, rfl, rfl, rfl, rfl, ?_⟩
  norm_num [START_RADIUS, c5A]

/-- Claim C5 amended: positions produced by the spawn placer (used for new
players and victim relocation) always lie within `[0, W−1] × [0, H−1]`, but
a move intent stores the client-supplied coordinates verbatim — the acting
player's position after any processed move is exactly `(cx, cy)` with no
clamping — so the claimed `[radius, W−radius] × [radius, H−radius]`
invariant does not hold. -/
theorem claim5_bounds_amended :
    (∀ (m : PlayerMap) (rnd : List (ℕ × ℕ)) (x y : ℤ) (r2 : List (ℕ × ℕ)),
      findSafeLoc m rnd = some ((x, y), r2) →
      0 ≤ x ∧ x < (WWIDTH : ℤ) ∧ 0 ≤ y ∧ y < (WHEIGHT : ℤ)) ∧
    (∀ (st : ServerState) (pid : ℕ) (cmd : String) (now : ℚ) (r : List (ℕ × ℕ))
        (b : List (ℕ × ℕ × ℕ)) (s : ℕ) (st2 : ServerState) (sn : Snap) (cx cy : ℤ),
      strStarts "move".data cmd.data = true →
      parseMove cmd = some (cx, cy) →
      handleCommand st pid cmd now r b s = some (st2, sn) →
      ∃ p, List.lookup pid st2.players = some p ∧ p.x = cx ∧ p.y = cy) := by
  constructor
  · intro m rnd x y r2 h
    exact (findSafeLoc_sound m rnd h).2
  · intro st pid cmd now r b s st2 sn cx cy hm hp hrun
    simp only [handleCommand, hm, if_true] at hrun
    cases hlk : List.lookup pid (updateGameState st now).players with
    | none => rw [hp, hlk] at hrun; simp at hrun
    | some pl =>
      rw [hp, hlk] at hrun
      simp only [] at hrun
      have hlk2 : List.lookup pid (updPlayer (updateGameState st now).players pid
          fun p => { p with x := cx, y := cy }) = some { pl with x := cx, y := cy } := by
        rw [lookup_updPlayer_self, hlk]
        rfl
      by_cases hgs : (updateGameState st now).gameStarted = true
      · rw [if_pos hgs] at hrun
        cases hcc : checkCollisions (updPlayer (updateGameState st now).players pid
            fun p => { p with x := cx, y := cy }) (updateGameState st now).balls pid r with
        | none => rw [hcc] at hrun; simp at hrun
        | some res =>
          rw [hcc] at hrun
          simp only [] at hrun
          obtain ⟨p, hpl, hx, hy⟩ := checkCollisions_pid_pos _ _ pid r res _ hcc hlk2
          obtain ⟨m2, bs2, rest2⟩ := res
          by_cases hlen : bs2.length < 150
          · rw [if_pos hlen] at hrun
            cases hcb : createBalls m2 (50 + s % 50) b with
            | none => rw [hcb] at hrun; simp at hrun
            | some nb =>
              rw [hcb] at hrun
              simp only [Option.map_some', Option.some.injEq] at hrun
              have hpls : st2.players = m2 := by
                injection hrun with h1 h2
                rw [← h1]
              rw [hpls]
              exact ⟨p, hpl, hx, hy⟩
          · rw [if_neg hlen] at hrun
            simp only [Option.map_some', Option.some.injEq] at hrun
            have hpls : st2.players = m2 := by
              injection hrun with h1 h2
              rw [← h1]
            rw [hpls]
            exact ⟨p, hpl, hx, hy⟩
      · rw [if_neg hgs] at hrun
        simp only [] at hrun
        by_cases hlen : (updateGameState st now).balls.length < 150
        · rw [if_pos hlen] at hrun
          cases hcb : createBalls (updPlayer (updateGameState st now).players pid
              fun p => { p with x := cx, y := cy }) (50 + s % 50) b with
          | none => rw [hcb] at hrun; simp at hrun
          | some nb =>
            rw [hcb] at hrun
            simp only [Option.map_some', Option.some.injEq] at hrun
            have hpls : st2.players = updPlayer (updateGameState st now).players pid
                fun p => { p with x := cx, y := cy } := by
              injection hrun with h1 h2
              rw [← h1]
            rw [hpls]
            exact ⟨_, hlk2, rfl, rfl⟩
        · rw [if_neg hlen] at hrun
          simp only [Option.map_some', Option.some.injEq] at hrun
          have hpls : st2.players = updPlayer (updateGameState st now).players pid
              fun p => { p with x := cx, y := cy } := by
            injection hrun with h1 h2
            rw [← h1]
          rw [hpls]
          exact ⟨_, hlk2, rfl, rfl⟩

set_option maxRecDepth 8192 in
/-- Witness for the amended C5: a concrete spawn draw lands inside
`[0, W−1] × [0, H−1]`, and the concrete `move 0 0` intent stores `(0, 0)`
verbatim. -/
theorem claim5_bounds_amended_witness :
    (findSafeLoc [] [(5, 6)] = some ((5, 6), []) ∧
      0 ≤ (5 : ℤ) ∧ (5 : ℤ) < (WWIDTH : ℤ) ∧ 0 ≤ (6 : ℤ) ∧ (6 : ℤ) < (WHEIGHT : ℤ)) ∧
    (strStarts "move".data "move 0 0".data = true ∧
      parseMove "move 0 0" = some (0, 0) ∧
      ∃ p, List.lookup 0 ({ c5State with
          players := [(0, { c5A with x := 0, y := 0 })] } : ServerState).players = some p ∧
        p.x = 0 ∧ p.y = 0) := by
  have hcx : ((5 % WWIDTH : ℕ) : ℤ) = 5 := by decide
  have hcy : ((6 % WHEIGHT : ℕ) : ℤ) = 6 := by decide
  have hloc : findSafeLoc [] [(5, 6)] = some ((5, 6), []) := by
    have h := findSafeLoc_cons_safe [] 5 6 [] (by rw [hcx, hcy]; exact isSafeLoc_nil _ _)
    rw [hcx, hcy] at h
    exact h
  refine ⟨⟨hloc, claim5_bounds_amended.1 [] [(5, 6)] 5 6 [] hloc⟩, by decide, by decide, ?_⟩
  exact claim5_bounds_amended.2 c5State 0 "move 0 0" 1 [] [] 0
    { c5State with players := [(0, { c5A with x := 0, y := 0 })] }
    (snapOf { c5State with players := [(0, { c5A with x := 0, y := 0 })] })
    0 0 (by decide) (by decide) rfl

/-- C6 scenario: a large acting player (score 100, radius 107). -/
noncomputable def c6A : Player := { x := 100, y := 100, color := (255, 0, 0), score := 100, name := "A" }

/-- C6 scenario: the player after eating 51 balls. -/
noncomputable def c6Afat : Player := { x := 100, y := 100, color := (255, 0, 0), score := 125.5, name := "A" }

/-- C6 scenario: food list — exactly 150 balls, 51 of them on the player. -/
def c6Balls : List Ball :=
  List.replicate 51 (100, 100, (1, 2, 3)) ++ List.replicate 99 (500, 500, (4, 5, 6))

/-- C6 scenario server state. -/
noncomputable def c6State : ServerState :=
  { players := [(0, c6A)], balls := c6Balls, msgHistory := [], gameTime := 0,
    startTime := 0, gameStarted := true, nextMassLossTick := 1, playerIdCounter := 1 }

lemma c6_update : updateGameState c6State 1 = { c6State with gameTime := 1 } := by
  have h1 : round ((1 : ℚ) - c6State.startTime) = 1 := by norm_num [c6State]
  rw [updateGameState_started _ rfl, h1, if_neg (by decide)]
  rfl

lemma c6_checkCollisions :
    checkCollisions [(0, c6A)] c6Balls 0 [] =
      some ([(0, c6Afat)], List.replicate 99 (500, 500, (4, 5, 6)), []) := by
  rw [checkCollisions_eq [(0, c6A)] c6Balls 0 [] c6A rfl, foodPhase_spec]
  have hnear : ballEatCond c6A.x c6A.y c6A.score (100, 100, (1, 2, 3)) :=
    ballEatCond_holds (c := 0) le_rfl (by norm_num [c6A]) (by norm_num [START_RADIUS, c6A]) _
  have hfar : ¬ ballEatCond c6A.x c6A.y c6A.score (500, 500, (4, 5, 6)) :=
    ballEatCond_fails (c := 200) (by norm_num) (by norm_num [START_RADIUS, c6A])
      (by norm_num [c6A]) _
  rw [show ([(0, c6A)] : PlayerMap).map Prod.fst = [0] from rfl, playerPhase_self,
    playerPhase_nil]
  simp only [Option.map_some', Option.some.injEq]
  rw [Prod.mk.injEq]
  constructor
  · simp only [c6Balls, List.countP_append, List.countP_replicate, hnear, hfar,
      decide_eq_true_eq, if_pos, if_neg, updPlayer, List.map_cons, List.map_nil]
    norm_num [c6A, c6Afat]
  · rw [Prod.mk.injEq]
    refine ⟨?_, rfl⟩
    rw [show (c6Balls : List Ball) = List.replicate 51 (100, 100, (1, 2, 3)) ++
        List.replicate 99 (500, 500, (4, 5, 6)) from rfl,
      List.filter_append, List.filter_replicate_of_neg (by simp [hnear]),
      List.filter_replicate_of_pos (by simp [hfar])]
    simp

lemma c6_safe : isSafeLoc [(0, c6Afat)] 700 700 :=
  isSafeLoc_cons
    (not_hypot_le_of (c := 133) (by norm_num) (by norm_num [START_RADIUS, c6Afat])
      (by norm_num [c6Afat]))
    (isSafeLoc_nil _ _)

lemma c6_createBalls :
    createBalls [(0, c6Afat)] 50 (List.replicate 50 (700, 700, 12)) =
      some (List.replicate 50 (700, 700, (128, 128, 128))) := by
  have hcx : ((700 % WWIDTH : ℕ) : ℤ) = 700 := by decide
  have hcy : ((700 % WHEIGHT : ℕ) : ℤ) = 700 := by decide
  have h := createBalls_replicate [(0, c6Afat)] 700 700 12 (by rw [hcx, hcy]; exact c6_safe) 50
  rw [hcx, hcy, show COLORS.getD (12 % COLORS.length) (0, 0, 0) = (128, 128, 128) from rfl] at h
  exact h

/-- The C6 post-intent state: 99 surviving balls plus a minimal batch of 50. -/
noncomputable def c6State2 : ServerState :=
  { c6State with gameTime := 1, players := [(0, c6Afat)],
                 balls := List.replicate 99 (500, 500, (4, 5, 6)) ++
                   List.replicate 50 (700, 700, (128, 128, 128)) }

set_option maxRecDepth 8192 in
/-- Counterexample to C6 as stated: starting from exactly 150 food items,
one move intent consumes 51 of them (leaving 99 < 150); replenishment fires
in the same intent but the batch drawn from `randrange(50, 100)` can be as
small as 50, so the snapshot taken immediately after the intent holds
99 + 50 = 149 items — below 150. -/
theorem claim6_replenish_counterexample :
    c6State.balls.length = 150 ∧
    ∃ st2 snap, handleCommand c6State 0 "move 100 100" 1 []
        (List.replicate 50 (700, 700, 12)) 0 = some (st2, snap) ∧
      st2.balls.length = 149 ∧ 149 < 150 := by
  have hsm : strStarts "move".data "move 100 100".data = true := by decide
  have hpm : parseMove "move 100 100" = some ((100 : ℤ), (100 : ℤ)) := by decide
  constructor
  · simp [c6State, c6Balls]
  refine ⟨c6State2, snapOf c6State2, ?_, by simp [c6State2], by norm_num⟩
  simp only [handleCommand, c6_update, hsm, if_true, hpm]
  rw [show List.lookup 0 ({ c6State with gameTime := 1 } : ServerState).players = some c6A
    from rfl]
  simp only []
  rw [show (updPlayer ({ c6State with gameTime := 1 } : ServerState).players 0 fun p =>
      { p with x := 100, y := 100 }) = [(0, c6A)] from rfl]
  rw [if_pos (show ({ c6State with gameTime := 1 } : ServerState).gameStarted = true from rfl)]
  rw [show ({ c6State with gameTime := 1 } : ServerState).balls = c6Balls from rfl]
  rw [c6_checkCollisions]
  simp only []
  rw [if_pos (show (List.replicate 99 ((500 : ℤ), (500 : ℤ), ((4 : ℕ), (5 : ℕ), (6 : ℕ)))).length <
    150 by simp)]
  rw [show (50 + 0 % 50) = 50 from rfl, c6_createBalls]
  simp only [Option.map_some']
  rfl

/-- Claim C6 amended: whenever the food count after collision handling in a
move intent is below 150, a batch of `50 + seed % 50 ∈ [50, 99]` items
(`randrange(50, 100)`) is created within the same intent and appended; the
post-intent count is the depleted count plus the batch size, which may still
be below 150 (e.g. 99 + 50 = 149). -/
theorem claim6_replenish_amended (st : ServerState) (pid : ℕ) (cmd : String) (now : ℚ)
    (r : List (ℕ × ℕ)) (b : List (ℕ × ℕ × ℕ)) (s : ℕ) (cx cy : ℤ)
    (m2 : PlayerMap) (bs2 : List Ball) (rest2 : List (ℕ × ℕ)) (nb : List Ball)
    (hm : strStarts "move".data cmd.data = true)
    (hp : parseMove cmd = some (cx, cy))
    (hgs : (updateGameState st now).gameStarted = true)
    (hlk : ∃ pl, List.lookup pid (updateGameState st now).players = some pl)
    (hcc : checkCollisions (updPlayer (updateGameState st now).players pid
        fun p => { p with x := cx, y := cy }) (updateGameState st now).balls pid r =
      some (m2, bs2, rest2))
    (hlen : bs2.length < 150)
    (hcb : createBalls m2 (50 + s % 50) b = some nb) :
    handleCommand st pid cmd now r b s =
      some ({ updateGameState st now with players := m2, balls := bs2 ++ nb },
            snapOf { updateGameState st now with players := m2, balls := bs2 ++ nb }) ∧
    (bs2 ++ nb).length = bs2.length + (50 + s % 50) ∧
    50 ≤ 50 + s % 50 ∧ 50 + s % 50 ≤ 99 := by
  obtain ⟨pl, hpl⟩ := hlk
  refine ⟨?_, ?_, ?_, ?_⟩
  · simp only [handleCommand, hm, if_true, hp]
    rw [hpl]
    simp only []
    rw [if_pos hgs, hcc]
    simp only []
    rw [if_pos hlen, hcb]
    simp only [Option.map_some']
  · simp [createBalls_length m2 (50 + s % 50) b nb hcb]
  · omega
  · have := Nat.mod_lt s (show 0 < 50 by norm_num)
    omega

/-- Witness for the amended C6 at the concrete scenario of the
counterexample: 99 balls survive, the minimal batch of 50 is appended, and
the result count is 99 + 50 = 149. -/
theorem claim6_replenish_amended_witness :
    strStarts "move".data "move 100 100".data = true ∧
    (List.replicate 99 ((500 : ℤ), (500 : ℤ), ((4 : ℕ), (5 : ℕ), (6 : ℕ)))).length < 150 ∧
    ((List.replicate 99 ((500 : ℤ), (500 : ℤ), ((4 : ℕ), (5 : ℕ), (6 : ℕ))) ++
        List.replicate 50 ((700 : ℤ), (700 : ℤ), ((128 : ℕ), (128 : ℕ), (128 : ℕ)))).length =
      (List.replicate 99 ((500 : ℤ), (500 : ℤ), ((4 : ℕ), (5 : ℕ), (6 : ℕ)))).length +
        (50 + 0 % 50) ∧
      50 ≤ 50 + 0 % 50 ∧ 50 + 0 % 50 ≤ 99) := by
  have hcc : checkCollisions (updPlayer (updateGameState c6State 1).players 0
      fun p => { p with x := 100, y := 100 }) (updateGameState c6State 1).balls 0 [] =
      some ([(0, c6Afat)], List.replicate 99 (500, 500, (4, 5, 6)), []) := by
    rw [c6_update]
    exact c6_checkCollisions
  have h := claim6_replenish_amended c6State 0 "move 100 100" 1 []
    (List.replicate 50 (700, 700, 12)) 0 100 100 [(0, c6Afat)]
    (List.replicate 99 (500, 500, (4, 5, 6))) []
    (List.replicate 50 (700, 700, (128, 128, 128)))
    (by decide) (by decide) (by rw [c6_update]; rfl) ⟨c6A, by rw [c6_update]; rfl⟩ hcc
    (by simp) c6_createBalls
  exact ⟨by decide, by simp, h.2⟩

/-- C8 trace: the initial state after startup with 200 balls. -/
noncomputable def st8 : ServerState := initState (List.replicate 200 (500, 500, (1, 2, 3)))

/-- C8 trace: the first connected player. -/
noncomputable def c8A : Player := { x := 400, y := 400, color := (255, 0, 0), score := 0, name := "A" }

/-- C8 trace: the player connecting after round expiry. -/
noncomputable def c8C : Player := { x := 600, y := 100, color := (255, 128, 0), score := 0, name := "C" }

/-- C8 trace: state after the first connection (clock started at 0). -/
noncomputable def st8A : ServerState :=
  { players := [(0, c8A)], balls := List.replicate 200 (500, 500, (1, 2, 3)),
    msgHistory := ["A CONNECTED"], gameTime := 0, startTime := 0, gameStarted := true,
    nextMassLossTick := 1, playerIdCounter := 1 }

/-- C8 trace: state after the move processed at 301 s — round expired. -/
noncomputable def st8B : ServerState :=
  { players := [(0, c8A)], balls := List.replicate 200 (500, 500, (1, 2, 3)),
    msgHistory := ["A CONNECTED"], gameTime := 301, startTime := 0, gameStarted := false,
    nextMassLossTick := 1, playerIdCounter := 1 }

/-- C8 trace: state after the post-expiry connection — clock restarted. -/
noncomputable def st8C : ServerState :=
  { players := [(0, c8A), (1, c8C)], balls := List.replicate 200 (500, 500, (1, 2, 3)),
    msgHistory := ["A CONNECTED", "C CONNECTED"], gameTime := 301, startTime := 310,
    gameStarted := true, nextMassLossTick := 1, playerIdCounter := 2 }

lemma handleConnect_eval (st : ServerState) (name : String) (now : ℚ) (a b : ℕ)
    (rest : List (ℕ × ℕ)) (hgs : st.gameStarted = false)
    (hsafe : isSafeLoc st.players ((a % WWIDTH : ℕ) : ℤ) ((b % WHEIGHT : ℕ) : ℤ)) :
    handleConnect st name now ((a, b) :: rest) =
      some { st with startTime := now, gameStarted := true,
                     playerIdCounter := st.playerIdCounter + 1,
                     msgHistory := addChatMessage st.msgHistory (name ++ " CONNECTED"),
                     players := st.players ++ [(st.playerIdCounter,
                       { x := ((a % WWIDTH : ℕ) : ℤ), y := ((b % WHEIGHT : ℕ) : ℤ),
                         color := COLORS.getD (st.playerIdCounter % COLORS.length) (0, 0, 0),
                         score := 0, name := name })] } := by
  simp only [handleConnect, hgs, Bool.false_eq_true, if_false]
  rw [findSafeLoc_cons_safe _ a b rest hsafe]

lemma c8_connA : handleConnect st8 "A" 0 [(400, 400)] = some st8A := by
  rw [handleConnect_eval st8 "A" 0 400 400 [] rfl (isSafeLoc_nil _ _)]
  rfl

lemma c8_update : updateGameState st8A 301 =
    { st8A with gameTime := 301, gameStarted := false } := by
  have h1 : round ((301 : ℚ) - st8A.startTime) = 301 := by norm_num [st8A]
  rw [updateGameState_started _ rfl, h1, if_neg (by decide)]
  rfl

set_option maxRecDepth 8192 in
lemma c8_move : handleCommand st8A 0 "move 400 400" 301 [] [] 0 = some (st8B, snapOf st8B) := by
  have hsm : strStarts "move".data "move 400 400".data = true := by decide
  have hpm : parseMove "move 400 400" = some ((400 : ℤ), (400 : ℤ)) := by decide
  simp only [handleCommand, c8_update, hsm, if_true, hpm]
  rw [show List.lookup 0 ({ st8A with gameTime := 301, gameStarted := false } :
    ServerState).players = some c8A from rfl]
  simp only []
  rw [if_neg (show ¬(({ st8A with gameTime := 301, gameStarted := false } :
    ServerState).gameStarted = true) by simp)]
  simp only []
  rw [if_neg (show ¬(st8A.balls.length < 150) by simp [st8A])]
  rfl

lemma c8_safeC : isSafeLoc st8B.players 600 100 :=
  isSafeLoc_cons
    (not_hypot_le_of (c := 8) (by norm_num) (by norm_num [START_RADIUS, c8A])
      (by norm_num [c8A]))
    (isSafeLoc_nil _ _)

lemma c8_connC : handleConnect st8B "C" 310 [(600, 100)] = some st8C := by
  have hcx : ((600 % WWIDTH : ℕ) : ℤ) = 600 := by decide
  have hcy : ((100 % WHEIGHT : ℕ) : ℤ) = 100 := by decide
  rw [handleConnect_eval st8B "C" 310 600 100 [] rfl (by rw [hcx, hcy]; exact c8_safeC)]
  rfl

/-- Counterexample to C8 as stated: the clock is *not* started exactly once.
After the round expires (move processed at 301 s flips the round inactive),
a brand-new connection at 310 s finds `game_started` false and restarts the
clock: the final state is active again with a fresh start timestamp, so
eating can occur after round expiry. -/
theorem claim8_round_restart_counterexample :
    runTrace st8 [GEvent.connect "A" 0 [(400, 400)],
                  GEvent.command 0 "move 400 400" 301 [] [] 0,
                  GEvent.connect "C" 310 [(600, 100)]] = some st8C ∧
    st8A.gameStarted = true ∧ st8A.startTime = 0 ∧
    (ROUND_TIME : ℤ) ≤ round ((301 : ℚ) - st8A.startTime) ∧
    st8B.gameStarted = false ∧
    st8C.gameStarted = true ∧ st8C.startTime = 310 ∧ (310 : ℚ) ≠ 0 := by
  refine ⟨?_, rfl, rfl, by norm_num [st8A, ROUND_TIME], rfl, rfl, rfl, by norm_num⟩
  rw [runTrace, show step st8 (GEvent.connect "A" 0 [(400, 400)]) =
    some st8A from c8_connA]
  simp only []
  rw [runTrace, show step st8A (GEvent.command 0 "move 400 400" 301 [] [] 0) =
    some st8B by simp only [step, c8_move, Option.map_some']]
  simp only []
  rw [runTrace, show step st8B (GEvent.connect "C" 310 [(600, 100)]) =
    some st8C from c8_connC]
  simp only []
  rfl

lemma lookup_updPlayer_score (m : PlayerMap) (pid i : ℕ) (f : Player → Player)
    (hf : ∀ q, (f q).score = q.score) :
    (List.lookup i (updPlayer m pid f)).map Player.score =
      (List.lookup i m).map Player.score := by
  by_cases h : i = pid
  · subst h
    rw [lookup_updPlayer_self]
    cases List.lookup i m <;> simp [hf]
  · rw [lookup_updPlayer_ne _ _ _ _ h]

/-- Claim C8 amended: the round clock is started by *any* accepted
connection that finds the round inactive — the very first one, but also any
new connection after round expiry, which restarts the clock and reactivates
the round.  Commands alone never reactivate an expired round: processing any
command while `game_started` is false leaves the flag false and every
player's score unchanged (no collision resolution happens). -/
theorem claim8_round_lifecycle_amended :
    (∀ (st : ServerState) (pid : ℕ) (cmd : String) (now : ℚ) (r : List (ℕ × ℕ))
        (b : List (ℕ × ℕ × ℕ)) (s : ℕ) (st2 : ServerState) (sn : Snap),
      st.gameStarted = false →
      handleCommand st pid cmd now r b s = some (st2, sn) →
      st2.gameStarted = false ∧
      ∀ i, (List.lookup i st2.players).map Player.score =
        (List.lookup i st.players).map Player.score) ∧
    (∀ (st : ServerState) (name : String) (now : ℚ) (c : List (ℕ × ℕ)) (st2 : ServerState),
      st.gameStarted = false →
      handleConnect st name now c = some st2 →
      st2.gameStarted = true ∧ st2.startTime = now) := by
  constructor
  · intro st pid cmd now r b s st2 sn hgs hrun
    rw [show handleCommand st pid cmd now r b s =
        handleCommand st pid cmd now r b s from rfl] at hrun
    by_cases hm : strStarts "move".data cmd.data = true
    · simp only [handleCommand, updateGameState_not_started now hgs, hm, if_true] at hrun
      cases hp : parseMove cmd with
      | none => rw [hp] at hrun; simp at hrun
      | some cc =>
        obtain ⟨cx, cy⟩ := cc
        rw [hp] at hrun
        cases hlk : List.lookup pid st.players with
        | none => rw [hlk] at hrun; simp at hrun
        | some pl =>
          rw [hlk] at hrun
          simp only [] at hrun
          rw [if_neg (by simp [hgs])] at hrun
          simp only [] at hrun
          by_cases hlen : st.balls.length < 150
          · rw [if_pos hlen] at hrun
            cases hcb : createBalls (updPlayer st.players pid fun p =>
                { p with x := cx, y := cy }) (50 + s % 50) b with
            | none => rw [hcb] at hrun; simp at hrun
            | some nb =>
              rw [hcb] at hrun
              simp only [Option.map_some', Option.some.injEq] at hrun
              injection hrun with h1 h2
              rw [← h1]
              exact ⟨hgs, fun i => lookup_updPlayer_score st.players pid i
                (fun p => { p with x := cx, y := cy }) (fun q => rfl)⟩
          · rw [if_neg hlen] at hrun
            simp only [Option.map_some', Option.some.injEq] at hrun
            injection hrun with h1 h2
            rw [← h1]
            exact ⟨hgs, fun i => lookup_updPlayer_score st.players pid i
              (fun p => { p with x := cx, y := cy }) (fun q => rfl)⟩
    · by_cases hs : strStarts "msg".data cmd.data = true
      · simp only [handleCommand, updateGameState_not_started now hgs, hm, hs, if_true,
          Bool.false_eq_true, if_false] at hrun
        cases hlk : List.lookup pid st.players with
        | none => rw [hlk] at hrun; simp at hrun
        | some pl =>
          rw [hlk] at hrun
          simp only [Option.some.injEq] at hrun
          injection hrun with h1 h2
          rw [← h1]
          exact ⟨hgs, fun i => rfl⟩
      · simp only [handleCommand, updateGameState_not_started now hgs, hm, hs,
          Bool.false_eq_true, if_false, Option.some.injEq] at hrun
        injection hrun with h1 h2
        rw [← h1]
        exact ⟨hgs, fun i => rfl⟩
  · intro st name now c st2 hgs hrun
    simp only [handleConnect, hgs, Bool.false_eq_true, if_false] at hrun
    cases hfl : findSafeLoc st.players c with
    | none => rw [hfl] at hrun; simp at hrun
    | some lr =>
      obtain ⟨⟨x, y⟩, rest⟩ := lr
      rw [hfl] at hrun
      simp only [Option.some.injEq] at hrun
      rw [← hrun]
      exact ⟨rfl, rfl⟩

/-- The C8 amended-witness state after a post-expiry move command. -/
noncomputable def st8B2 : ServerState :=
  { st8B with players := [(0, { c8A with x := 5, y := 6 })] }

set_option maxRecDepth 8192 in
lemma c8_move_inactive :
    handleCommand st8B 0 "move 5 6" 311 [] [] 0 = some (st8B2, snapOf st8B2) := rfl

/-- Witness for the amended C8 at concrete inputs: a move processed while
the round is inactive leaves the flag false and the player's score intact,
while the post-expiry connection restarts the clock at its own time. -/
theorem claim8_round_lifecycle_amended_witness :
    st8B.gameStarted = false ∧
    (handleCommand st8B 0 "move 5 6" 311 [] [] 0 = some (st8B2, snapOf st8B2) ∧
      st8B2.gameStarted = false ∧
      (List.lookup 0 st8B2.players).map Player.score =
        (List.lookup 0 st8B.players).map Player.score) ∧
    (handleConnect st8B "C" 310 [(600, 100)] = some st8C ∧
      st8C.gameStarted = true ∧ st8C.startTime = 310) := by
  obtain ⟨hflag, hsc⟩ := claim8_round_lifecycle_amended.1 st8B 0 "move 5 6" 311 [] [] 0
    st8B2 (snapOf st8B2) rfl c8_move_inactive
  obtain ⟨hflag2, hstt⟩ := claim8_round_lifecycle_amended.2 st8B "C" 310 [(600, 100)]
    st8C rfl c8_connC
  exact ⟨rfl, ⟨c8_move_inactive, hflag, hsc 0⟩, c8_connC, hflag2, hstt⟩

/-! ### Score non-negativity -/

/-- All scores in the player map are non-negative. -/
def scoresOK (m : PlayerMap) : Prop := ∀ e ∈ m, 0 ≤ e.2.score

lemma scoresOK_updPlayer {m : PlayerMap} (i : ℕ) (f : Player → Player)
    (h : scoresOK m) (hf : ∀ q, 0 ≤ q.score → 0 ≤ (f q).score) :
    scoresOK (updPlayer m i f) := by
  intro e he
  rcases List.mem_map.1 he with ⟨e2, he2, heq⟩
  by_cases hk : e2.1 = i
  · rw [if_pos hk] at heq
    rw [← heq]
    exact hf e2.2 (h e2 he2)
  · rw [if_neg hk] at heq
    rw [← heq]
    exact h e2 he2

lemma scoresOK_updPlayer_const {m : PlayerMap} (i : ℕ) (f : Player → Player)
    (h : scoresOK m) (hf : ∀ q, 0 ≤ (f q).score) : scoresOK (updPlayer m i f) :=
  scoresOK_updPlayer i f h fun q _ => hf q

lemma scoresOK_decayAll {m : PlayerMap} (h : scoresOK m) : scoresOK (decayAll m) := by
  intro e he
  rcases List.mem_map.1 he with ⟨e2, he2, heq⟩
  by_cases hd : e2.2.score > 8
  · rw [if_pos hd] at heq
    rw [← heq]
    simp only []
    have h95 : (0 : ℝ) ≤ e2.2.score * 0.95 := by
      have := h e2 he2
      positivity
    exact_mod_cast Int.cast_nonneg.2 (Int.floor_nonneg.2 h95)
  · rw [if_neg hd] at heq
    rw [← heq]
    exact h e2 he2

lemma scoresOK_updateGameState {st : ServerState} (now : ℚ) (h : scoresOK st.players) :
    scoresOK (updateGameState st now).players := by
  cases hgs : st.gameStarted
  · rw [updateGameState_not_started now hgs]
    exact h
  · rw [updateGameState_started now hgs]
    split
    · exact scoresOK_decayAll h
    · exact h

lemma scoresOK_playerPhase (pid : ℕ) (px py : ℤ) (ps : ℝ) (ids : List ℕ) :
    ∀ (m : PlayerMap) (rnd : List (ℕ × ℕ)) (res : PlayerMap × List (ℕ × ℕ)),
      playerPhase pid px py ps ids m rnd = some res → scoresOK m → scoresOK res.1 := by
  induction ids with
  | nil =>
    intro m rnd res h hm
    rw [playerPhase_nil] at h
    rw [← Option.some.inj h]
    exact hm
  | cons oid rest ih =>
    intro m rnd res h hm
    by_cases hop : oid = pid
    · subst hop
      rw [playerPhase_self] at h
      exact ih m rnd res h hm
    · rw [playerPhase, if_neg hop] at h
      cases hlk : List.lookup oid m with
      | none => rw [hlk] at h; simp at h
      | some o =>
        rw [hlk] at h
        simp only [] at h
        by_cases hec : eatCond px py ps o
        · rw [if_pos hec] at h
          cases hfl : findSafeLoc (updPlayer (updPlayer m pid fun q =>
              { q with score := Real.sqrt (ps ^ 2 + o.score ^ 2) })
              oid fun q => { q with score := 0 }) rnd with
          | none => rw [hfl] at h; simp at h
          | some lr =>
            obtain ⟨⟨nx, ny⟩, rnd2⟩ := lr
            rw [hfl] at h
            simp only [] at h
            refine ih _ rnd2 res h ?_
            refine scoresOK_updPlayer oid _ ?_ (fun q hq => hq)
            refine scoresOK_updPlayer_const oid _ ?_ (fun q => le_rfl)
            exact scoresOK_updPlayer_const pid _ hm fun q => Real.sqrt_nonneg _
        · rw [if_neg hec] at h
          exact ih m rnd res h hm

lemma scoresOK_checkCollisions (players : PlayerMap) (balls : List Ball) (pid : ℕ)
    (rnd : List (ℕ × ℕ)) (res : PlayerMap × List Ball × List (ℕ × ℕ))
    (h : checkCollisions players balls pid rnd = some res) (hm : scoresOK players) :
    scoresOK res.1 := by
  cases hlk : List.lookup pid players with
  | none => rw [checkCollisions, hlk] at h; simp at h
  | some p =>
    rw [checkCollisions_eq players balls pid rnd p hlk] at h
    cases hpp : playerPhase pid p.x p.y p.score (players.map Prod.fst)
        (updPlayer players pid fun q =>
          { q with score := (foodPhase p.x p.y p.score balls balls p.score).2 }) rnd with
    | none => rw [hpp] at h; simp at h
    | some r =>
      rw [hpp] at h
      simp only [Option.map_some'] at h
      have hscore : 0 ≤ (foodPhase p.x p.y p.score balls balls p.score).2 :=
        le_trans (hm (pid, p) (lookup_mem hlk)) (foodPhase_score_ge p.x p.y p.score balls p.score)
      have h1 : scoresOK r.1 :=
        scoresOK_playerPhase pid p.x p.y p.score (players.map Prod.fst) _ rnd r hpp
          (scoresOK_updPlayer_const pid _ hm fun q => hscore)
      rw [← Option.some.inj h]
      exact h1

lemma scoresOK_handleCommand (st : ServerState) (pid : ℕ) (cmd : String) (now : ℚ)
    (r : List (ℕ × ℕ)) (b : List (ℕ × ℕ × ℕ)) (s : ℕ) (st2 : ServerState) (sn : Snap)
    (hrun : handleCommand st pid cmd now r b s = some (st2, sn))
    (h : scoresOK st.players) : scoresOK st2.players := by
  have h1 : scoresOK (updateGameState st now).players := scoresOK_updateGameState now h
  by_cases hm : strStarts "move".data cmd.data = true
  · simp only [handleCommand, hm, if_true] at hrun
    cases hp : parseMove cmd with
    | none => rw [hp] at hrun; simp at hrun
    | some cc =>
      obtain ⟨cx, cy⟩ := cc
      rw [hp] at hrun
      cases hlk : List.lookup pid (updateGameState st now).players with
      | none => rw [hlk] at hrun; simp at hrun
      | some pl =>
        rw [hlk] at hrun
        simp only [] at hrun
        have h2 : scoresOK (updPlayer (updateGameState st now).players pid fun p =>
            { p with x := cx, y := cy }) :=
          scoresOK_updPlayer pid _ h1 fun q hq => hq
        by_cases hgs : (updateGameState st now).gameStarted = true
        · rw [if_pos hgs] at hrun
          cases hcc : checkCollisions (updPlayer (updateGameState st now).players pid
              fun p => { p with x := cx, y := cy }) (updateGameState st now).balls pid r with
          | none => rw [hcc] at hrun; simp at hrun
          | some res =>
            rw [hcc] at hrun
            simp only [] at hrun
            have h3 : scoresOK res.1 := scoresOK_checkCollisions _ _ pid r res hcc h2
            obtain ⟨m2, bs2, rest2⟩ := res
            by_cases hlen : bs2.length < 150
            · rw [if_pos hlen] at hrun
              cases hcb : createBalls m2 (50 + s % 50) b with
              | none => rw [hcb] at hrun; simp at hrun
              | some nb =>
                rw [hcb] at hrun
                simp only [Option.map_some', Option.some.injEq] at hrun
                injection hrun with hh1 hh2
                rw [← hh1]
                exact h3
            · rw [if_neg hlen] at hrun
              simp only [Option.map_some', Option.some.injEq] at hrun
              injection hrun with hh1 hh2
              rw [← hh1]
              exact h3
        · rw [if_neg hgs] at hrun
          simp only [] at hrun
          by_cases hlen : (updateGameState st now).balls.length < 150
          · rw [if_pos hlen] at hrun
            cases hcb : createBalls (updPlayer (updateGameState st now).players pid
                fun p => { p with x := cx, y := cy }) (50 + s % 50) b with
            | none => rw [hcb] at hrun; simp at hrun
            | some nb =>
              rw [hcb] at hrun
              simp only [Option.map_some', Option.some.injEq] at hrun
              injection hrun with hh1 hh2
              rw [← hh1]
              exact h2
          · rw [if_neg hlen] at hrun
            simp only [Option.map_some', Option.some.injEq] at hrun
            injection hrun with hh1 hh2
            rw [← hh1]
            exact h2
  · by_cases hs : strStarts "msg".data cmd.data = true
    · simp only [handleCommand, hm, hs, if_true, Bool.false_eq_true, if_false] at hrun
      cases hlk : List.lookup pid (updateGameState st now).players with
      | none => rw [hlk] at hrun; simp at hrun
      | some pl =>
        rw [hlk] at hrun
        simp only [Option.some.injEq] at hrun
        injection hrun with hh1 hh2
        rw [← hh1]
        exact h1
    · simp only [handleCommand, hm, hs, Bool.false_eq_true, if_false,
        Option.some.injEq] at hrun
      injection hrun with hh1 hh2
      rw [← hh1]
      exact h1

/-- Claim C9: every score-mutating operation of the server — insertion at
handshake with score 0, food consumption (+0.5 each), the `sqrt(a² + b²)`
merge, the victim reset to 0, the decay step `floor(score × 0.95)`, and
player removal — preserves non-negativity of all scores: any event step from
a state with non-negative scores yields a state with non-negative scores. -/
theorem claim9_score_nonneg (st : ServerState) (ev : GEvent) (st2 : ServerState)
    (h : scoresOK st.players) (hs : step st ev = some st2) : scoresOK st2.players := by
  cases ev with
  | connect name now cands =>
    simp only [step, handleConnect] at hs
    cases hfl : findSafeLoc (if st.gameStarted = true then st
        else { st with startTime := now, gameStarted := true }).players cands with
    | none => rw [hfl] at hs; simp at hs
    | some lr =>
      obtain ⟨⟨x, y⟩, rest⟩ := lr
      rw [hfl] at hs
      simp only [Option.some.injEq] at hs
      rw [← hs]
      intro e he
      simp only [] at he
      rcases List.mem_append.1 he with h2 | h2
      · by_cases hgs : st.gameStarted = true
        · rw [if_pos hgs] at h2
          exact h e h2
        · rw [if_neg hgs] at h2
          exact h e h2
      · simp at h2
        rw [h2]
  | command pid cmd now r b s =>
    simp only [step] at hs
    cases hc : handleCommand st pid cmd now r b s with
    | none => rw [hc] at hs; simp at hs
    | some p2 =>
      rw [hc] at hs
      simp only [Option.map_some', Option.some.injEq] at hs
      rw [← hs]
      exact scoresOK_handleCommand st pid cmd now r b s p2.1 p2.2 (by rw [hc]) h
  | disconnect pid =>
    simp only [step, handleDisconnect] at hs
    cases hlk : List.lookup pid st.players with
    | none =>
      rw [hlk] at hs
      simp only [Option.some.injEq] at hs
      rw [← hs]
      exact h
    | some p =>
      rw [hlk] at hs
      simp only [Option.some.injEq] at hs
      rw [← hs]
      intro e he
      exact h e (List.mem_of_mem_filter he)

/-- The C9 witness state: after the lone player disconnects. -/
noncomputable def st8B3 : ServerState :=
  { st8B with players := [], msgHistory := ["A CONNECTED", "A DISCONNECTED"] }

/-- Witness for C9 at a concrete input: a disconnect event from a state with
non-negative scores yields a state with non-negative scores. -/
theorem claim9_score_nonneg_witness :
    scoresOK st8B.players ∧
    step st8B (GEvent.disconnect 0) = some st8B3 ∧
    scoresOK st8B3.players := by
  have h : scoresOK st8B.players := by
    intro e he
    simp [st8B] at he
    rw [he]
    norm_num [c8A]
  have hs : step st8B (GEvent.disconnect 0) = some st8B3 := rfl
  exact ⟨h, hs, claim9_score_nonneg st8B _ st8B3 h hs⟩
